import Mathlib

/-!
# Tetris game-state engine: a shallow embedding of `src/tetris.c`

The C globals (`board`, `bag`, `bag_head`, `next_queue`, `hold_idx`, ...,
`game_state`) become the fields of one `State` record that every operation
takes and returns.  C `int` values are integers (`Int`); the sums and the
product that `lock_piece` stores in `lines_cleared_total` and `score` are
reduced modulo 2^32 into the range of `int` (`wrap_int`), as `int` arithmetic
does on two's-complement targets, while coordinates and cursors, which stay
far from the bounds of `int`, are not reduced.  An out-of-bounds array read
(`bag[..]`, `SHAPES[..]`, `points[..]`) is undefined behaviour in C and makes
the embedded operation return `none`.  `rand()` is a parameter
`R : Nat → Nat`: `R n` is the value returned by the `n`-th call, and the state
counts the calls made so far.  Terminal handling, rendering, timing and the
high-score file are outside the embedding.
-/

namespace Tetris

/-! ## Data model -/

/-- `#define BOARD_WIDTH 10`. -/
def BOARD_WIDTH : Int := 10

/-- `#define BOARD_HEIGHT 20`. -/
def BOARD_HEIGHT : Int := 20

/-- `typedef struct { int x, y; } Point;` -/
structure Point where
  x : Int
  y : Int
deriving DecidableEq, Repr

/-- The array `Point blocks[4]`, indexed by `Fin 4`. -/
structure Blocks where
  b0 : Point
  b1 : Point
  b2 : Point
  b3 : Point
deriving DecidableEq, Repr

/-- Read `blocks[i]`. -/
def Blocks.get (b : Blocks) (i : Fin 4) : Point :=
  match i with
  | 0 => b.b0
  | 1 => b.b1
  | 2 => b.b2
  | 3 => b.b3

/-- Write `blocks[i] = p`. -/
def Blocks.set (b : Blocks) (i : Fin 4) (p : Point) : Blocks :=
  match i with
  | 0 => { b with b0 := p }
  | 1 => { b with b1 := p }
  | 2 => { b with b2 := p }
  | 3 => { b with b3 := p }

/-- `typedef struct { Point blocks[4]; int color_idx; char *color_code; int type_idx; }
Tetromino;`  The field `color_code` holds the ANSI escape string of the colour. -/
structure Tetromino where
  blocks : Blocks
  color_idx : Int
  color_code : String
  type_idx : Int
deriving DecidableEq, Repr

/-- `int board[BOARD_HEIGHT][BOARD_WIDTH]`, a list of rows. -/
abbrev Board := List (List Int)

/-- Read `board[y][x]`; every read in the program is guarded so that
`0 <= y < 20` and `0 <= x < 10`. -/
def Board.get (b : Board) (y x : Nat) : Int := (b.getD y []).getD x 0

/-- Write `board[y][x] = v`. -/
def Board.put (b : Board) (y x : Nat) (v : Int) : Board :=
  b.set y ((b.getD y []).set x v)

/-- The array `Tetromino next_queue[3]`. -/
structure Queue where
  q0 : Tetromino
  q1 : Tetromino
  q2 : Tetromino
deriving DecidableEq, Repr

/-- The global variables of the game.  `rand_calls` counts the calls of
`rand()` made so far. -/
structure State where
  board : Board
  bag : List Int
  bag_head : Int
  next_queue : Queue
  hold_idx : Int
  hold_locked : Int
  current_piece : Tetromino
  piece_x : Int
  piece_y : Int
  score : Int
  high_score : Int
  lines_cleared_total : Int
  level : Int
  game_state : Int
  rand_calls : Nat
deriving DecidableEq, Repr

/-- The escape code `FG_CYAN` of `#define FG_CYAN`. -/
def FG_CYAN : String := "\x1b[36m"

/-- The escape code `FG_BLUE` of `#define FG_BLUE`. -/
def FG_BLUE : String := "\x1b[34m"

/-- The escape code `FG_YELLOW` of `#define FG_YELLOW`. -/
def FG_YELLOW : String := "\x1b[33m"

/-- The escape code `FG_WHITE` of `#define FG_WHITE`. -/
def FG_WHITE : String := "\x1b[37m"

/-- The escape code `FG_GREEN` of `#define FG_GREEN`. -/
def FG_GREEN : String := "\x1b[32m"

/-- The escape code `FG_MAGENTA` of `#define FG_MAGENTA`. -/
def FG_MAGENTA : String := "\x1b[35m"

/-- The escape code `FG_RED` of `#define FG_RED`. -/
def FG_RED : String := "\x1b[31m"

/-- One entry of `SHAPES`. -/
def mkShape (x0 y0 x1 y1 x2 y2 x3 y3 : Int) (color : Int) (code : String) (type : Int) :
    Tetromino :=
  { blocks := { b0 := ⟨x0, y0⟩, b1 := ⟨x1, y1⟩, b2 := ⟨x2, y2⟩, b3 := ⟨x3, y3⟩ },
    color_idx := color, color_code := code, type_idx := type }

/-- `const Tetromino SHAPES[7]`: I, J, L, O, S, T, Z. -/
def SHAPES : List Tetromino :=
  [ mkShape 0 1 1 1 2 1 3 1 1 FG_CYAN 0,
    mkShape 0 0 0 1 1 1 2 1 2 FG_BLUE 1,
    mkShape 2 0 0 1 1 1 2 1 3 FG_YELLOW 2,
    mkShape 1 0 2 0 1 1 2 1 4 FG_WHITE 3,
    mkShape 1 0 2 0 0 1 1 1 5 FG_GREEN 4,
    mkShape 1 0 0 1 1 1 2 1 6 FG_MAGENTA 5,
    mkShape 0 0 1 0 1 1 2 1 7 FG_RED 6 ]

/-! ## Bag randomiser and lookahead queue -/

/-- One iteration of the Fisher-Yates loop of `shuffle_bag`:
`j = rand() % (i + 1); temp = bag[i]; bag[i] = bag[j]; bag[j] = temp;`.
The pair is (bag, number of `rand()` calls so far). -/
def shuffle_step (R : Nat → Nat) (st : List Int × Nat) (i : Nat) : List Int × Nat :=
  let j := R st.2 % (i + 1)
  let temp := st.1.getD i 0
  ((st.1.set i (st.1.getD j 0)).set j temp, st.2 + 1)

/-- `void shuffle_bag()`. -/
def shuffle_bag (R : Nat → Nat) (s : State) : State :=
  let bag0 := (List.range 7).foldl (fun b i => b.set i (i : Int)) s.bag
  let r := [6, 5, 4, 3, 2, 1].foldl (shuffle_step R) (bag0, s.rand_calls)
  { s with bag := r.1, bag_head := 0, rand_calls := r.2 }

/-- `Tetromino get_from_bag()`; `none` when `bag[bag_head]` or
`SHAPES[bag[bag_head]]` is read out of bounds. -/
def get_from_bag (R : Nat → Nat) (s : State) : Option (Tetromino × State) :=
  let s1 := if s.bag_head ≥ 7 then shuffle_bag R s else s
  if s1.bag_head < 0 then none
  else
    match s1.bag[s1.bag_head.toNat]? with
    | none => none
    | some k =>
      if k < 0 then none
      else
        match SHAPES[k.toNat]? with
        | none => none
        | some p => some (p, { s1 with bag_head := s1.bag_head + 1 })

/-- `Tetromino pop_next_piece()`. -/
def pop_next_piece (R : Nat → Nat) (s : State) : Option (Tetromino × State) :=
  let p := s.next_queue.q0
  let s1 := { s with next_queue := { s.next_queue with q0 := s.next_queue.q1 } }
  let s2 := { s1 with next_queue := { s1.next_queue with q1 := s1.next_queue.q2 } }
  match get_from_bag R s2 with
  | none => none
  | some (t, s3) => some (p, { s3 with next_queue := { s3.next_queue with q2 := t } })

/-! ## Collision, spawn, lock -/

/-- The body of the loop of `check_collision` for block `i`: does this block
make the function return 1? -/
def block_collides (b : Board) (p : Tetromino) (x y : Int) (i : Fin 4) : Bool :=
  let bx := x + (p.blocks.get i).x
  let by_ := y + (p.blocks.get i).y
  if bx < 0 ∨ bx ≥ BOARD_WIDTH ∨ by_ ≥ BOARD_HEIGHT then true
  else if by_ ≥ 0 ∧ b.get by_.toNat bx.toNat ≠ 0 then true
  else false

/-- `int check_collision(Tetromino p, int x, int y)` on the global board. -/
def check_collision (b : Board) (p : Tetromino) (x y : Int) : Bool :=
  [0, 1, 2, 3].any (block_collides b p x y)

/-- `void save_high_score()` without the file write. -/
def save_high_score (s : State) : State :=
  if s.score > s.high_score then { s with high_score := s.score } else s

/-- `void spawn_piece()`. -/
def spawn_piece (R : Nat → Nat) (s : State) : Option State :=
  match pop_next_piece R s with
  | none => none
  | some (p, s1) =>
    let s2 := { s1 with current_piece := p }
    let s3 := { s2 with piece_x := Int.tdiv BOARD_WIDTH 2 - 2 }
    let s4 := { s3 with piece_y := 0 }
    let s5 := { s4 with hold_locked := 0 }
    if check_collision s5.board s5.current_piece s5.piece_x s5.piece_y then
      some (save_high_score { s5 with game_state := 1 })
    else some s5

/-- The first loop of `lock_piece`, iteration `i`: write block `i` of the
active piece into the board when it lies inside the board. -/
def write_block (p : Tetromino) (px py : Int) (b : Board) (i : Fin 4) : Board :=
  let bx := px + (p.blocks.get i).x
  let by_ := py + (p.blocks.get i).y
  if by_ ≥ 0 ∧ by_ < BOARD_HEIGHT ∧ bx ≥ 0 ∧ bx < BOARD_WIDTH then
    b.put by_.toNat bx.toNat p.color_idx
  else b

/-- The first loop of `lock_piece`. -/
def write_piece (p : Tetromino) (px py : Int) (b : Board) : Board :=
  [0, 1, 2, 3].foldl (write_block p px py) b

/-- The scan `for (x = 0; x < BOARD_WIDTH; x++) if (board[y][x] == 0) { full = 0; break; }`:
the value of `full` after it. -/
def row_full (b : Board) (y : Nat) : Bool :=
  (List.range BOARD_WIDTH.toNat).all (fun x => b.get y x != 0)

/-- `for (xx = 0; xx < BOARD_WIDTH; xx++) board[yy][xx] = board[yy - 1][xx];` -/
def copy_row (b : Board) (yy : Nat) : Board :=
  (List.range BOARD_WIDTH.toNat).foldl (fun acc xx => acc.put yy xx (acc.get (yy - 1) xx)) b

/-- `for (yy = y; yy > 0; yy--) (copy row yy - 1 into row yy)`. -/
def shift_rows (b : Board) : Nat → Board
  | 0 => b
  | yy + 1 => shift_rows (copy_row b (yy + 1)) yy

/-- `for (xx = 0; xx < BOARD_WIDTH; xx++) board[0][xx] = 0;` -/
def clear_top_row (b : Board) : Board :=
  (List.range BOARD_WIDTH.toNat).foldl (fun acc xx => acc.put 0 xx 0) b

/-- The row-clearing loop of `lock_piece`,
`for (y = BOARD_HEIGHT - 1; y >= 0; y--) { ... if (full) { lines++; ...; y++; } }`,
from loop variable `y` with the board `b` and the counter `lines`.  Each unit
of `fuel` pays for one test of the loop condition; `none` means the fuel ran
out. -/
def clear_loop : Nat → Int → Board → Int → Option (Board × Int)
  | 0, _, _, _ => none
  | fuel + 1, y, b, lines =>
    if y ≥ 0 then
      if row_full b y.toNat then
        clear_loop fuel ((y + 1) - 1) (clear_top_row (shift_rows b y.toNat)) (lines + 1)
      else clear_loop fuel (y - 1) b lines
    else some (b, lines)

/-- The row-clearing pass of `lock_piece`: `lines = 0` and the loop from
`y = BOARD_HEIGHT - 1`. -/
def clear_rows (fuel : Nat) (b : Board) : Option (Board × Int) :=
  clear_loop fuel (BOARD_HEIGHT - 1) b 0

/-- `int points[] = {0, 100, 300, 500, 800};` -/
def points : List Int := [0, 100, 300, 500, 800]

/-- Fuel that suffices for the row-clearing loop on a 20-row board: at most 20
rows are examined without a clear, at most 20 clears happen, and one last test
ends the loop. -/
def CLEAR_FUEL : Nat := 2 * BOARD_HEIGHT.toNat + 1

/-- The least value of a 32-bit `int`. -/
def INT_MIN : Int := -2147483648

/-- The greatest value of a 32-bit `int`. -/
def INT_MAX : Int := 2147483647

/-- The value an `int` holds after an arithmetic result `x`: `x` reduced
modulo 2^32 into `[INT_MIN, INT_MAX]`. -/
def wrap_int (x : Int) : Int := (x + 2147483648) % 4294967296 - 2147483648

/-- The scoring block of `lock_piece`, `if (lines > 0) { ... }`; `none` when
`points[lines]` is read out of bounds.  `lines_cleared_total += lines` and
`score += points[lines] * level` are `int` operations and wrap;
`1 + lines_cleared_total / 10` cannot leave the range of `int`. -/
def score_lines (s : State) (lines : Int) : Option State :=
  if lines > 0 then
    let s1 := { s with lines_cleared_total := wrap_int (s.lines_cleared_total + lines) }
    match points[lines.toNat]? with
    | none => none
    | some pts =>
      let s2 := { s1 with score := wrap_int (s1.score + wrap_int (pts * s1.level)) }
      let s3 := { s2 with level := 1 + Int.tdiv s2.lines_cleared_total 10 }
      some (if s3.score > s3.high_score then { s3 with high_score := s3.score } else s3)
  else some s

/-- `void lock_piece()`. -/
def lock_piece (R : Nat → Nat) (s : State) : Option State :=
  let b1 := write_piece s.current_piece s.piece_x s.piece_y s.board
  match clear_rows CLEAR_FUEL b1 with
  | none => none
  | some (b2, lines) =>
    match score_lines { s with board := b2 } lines with
    | none => none
    | some s1 => spawn_piece R s1

/-! ## Hold, rotation, hard drop, reset -/

/-- `void hold_piece_action()`; `none` when `SHAPES[temp]` is read out of
bounds. -/
def hold_piece_action (R : Nat → Nat) (s : State) : Option State :=
  if s.hold_locked ≠ 0 then some s
  else if s.hold_idx = -1 then
    match spawn_piece R { s with hold_idx := s.current_piece.type_idx } with
    | none => none
    | some s1 => some { s1 with hold_locked := 1 }
  else
    let temp := s.hold_idx
    let s1 := { s with hold_idx := s.current_piece.type_idx }
    if temp < 0 then none
    else
      match SHAPES[temp.toNat]? with
      | none => none
      | some p =>
        let s2 := { s1 with current_piece := p }
        let s3 := { s2 with piece_x := Int.tdiv BOARD_WIDTH 2 - 2 }
        let s4 := { s3 with piece_y := 0 }
        some { s4 with hold_locked := 1 }

/-- The body of the rotation loop of `rotate_piece` for block `i`, with the
saved `center`. -/
def rotate_block (center : Point) (temp : Tetromino) (i : Fin 4) : Tetromino :=
  let x := (temp.blocks.get i).x
  let y := (temp.blocks.get i).y
  let rx := x - center.x
  let ry := y - center.y
  { temp with blocks := temp.blocks.set i ⟨center.x - ry, center.y + rx⟩ }

/-- The rotated copy `temp` built by `rotate_piece`. -/
def rotated (p : Tetromino) : Tetromino :=
  let center := p.blocks.get 1
  [0, 1, 2, 3].foldl (rotate_block center) p

/-- `void rotate_piece()`. -/
def rotate_piece (s : State) : State :=
  let temp := s.current_piece
  if s.current_piece.color_idx = 4 then s
  else
    let temp := rotated temp
    if check_collision s.board temp s.piece_x s.piece_y then
      if ¬ check_collision s.board temp (s.piece_x - 1) s.piece_y then
        { s with piece_x := s.piece_x - 1, current_piece := temp }
      else if ¬ check_collision s.board temp (s.piece_x + 1) s.piece_y then
        { s with piece_x := s.piece_x + 1, current_piece := temp }
      else s
    else { s with current_piece := temp }

/-- The loop `while (!check_collision(current_piece, piece_x, piece_y + 1)) piece_y++;`
of `drop_piece_hard`.  Each unit of `fuel` pays for one test of the loop
condition; `none` means the fuel ran out. -/
def descend : Nat → State → Option State
  | 0, _ => none
  | fuel + 1, s =>
    if ¬ check_collision s.board s.current_piece s.piece_x (s.piece_y + 1) then
      descend fuel { s with piece_y := s.piece_y + 1 }
    else some s

/-- Fuel that suffices for the descent from `s`: block 0 collides with the
floor once its row `piece_y + 1 + dy` reaches `BOARD_HEIGHT`. -/
def drop_fuel (s : State) : Nat :=
  (BOARD_HEIGHT - (s.piece_y + (s.current_piece.blocks.get 0).y)).toNat + 1

/-- `void drop_piece_hard()`. -/
def drop_piece_hard (R : Nat → Nat) (s : State) : Option State :=
  match descend (drop_fuel s) s with
  | none => none
  | some s1 => lock_piece R s1

/-- The loops of `reset_game` that zero every board cell. -/
def zero_board (b : Board) : Board :=
  (List.range BOARD_HEIGHT.toNat).foldl
    (fun acc y => (List.range BOARD_WIDTH.toNat).foldl (fun acc2 x => acc2.put y x 0) acc) b

/-- `void reset_game()`. -/
def reset_game (R : Nat → Nat) (s : State) : Option State :=
  let s1 := { s with board := zero_board s.board }
  let s2 := { s1 with score := 0, lines_cleared_total := 0, level := 1, game_state := 0,
                      hold_idx := -1, hold_locked := 0, bag_head := 7 }
  let s3 := shuffle_bag R s2
  match get_from_bag R s3 with
  | none => none
  | some (t0, s4) =>
    match get_from_bag R { s4 with next_queue := { s4.next_queue with q0 := t0 } } with
    | none => none
    | some (t1, s5) =>
      match get_from_bag R { s5 with next_queue := { s5.next_queue with q1 := t1 } } with
      | none => none
      | some (t2, s6) => spawn_piece R { s6 with next_queue := { s6.next_queue with q2 := t2 } }

/-! ## The main loop and program start -/

/-- The key commands of `handle_input` that act on the active piece without
locking it: left, right, soft drop (also a timer tick that is not blocked),
rotate and hold. -/
inductive Move where
  | left
  | right
  | down
  | rotate
  | hold
deriving DecidableEq, Repr

/-- The effect of one such command in `handle_input`, e.g.
`if (!check_collision(current_piece, piece_x - 1, piece_y)) piece_x--;`. -/
def apply_move (R : Nat → Nat) (m : Move) (s : State) : Option State :=
  match m with
  | Move.left =>
    some (if ¬ check_collision s.board s.current_piece (s.piece_x - 1) s.piece_y
          then { s with piece_x := s.piece_x - 1 } else s)
  | Move.right =>
    some (if ¬ check_collision s.board s.current_piece (s.piece_x + 1) s.piece_y
          then { s with piece_x := s.piece_x + 1 } else s)
  | Move.down =>
    some (if ¬ check_collision s.board s.current_piece s.piece_x (s.piece_y + 1)
          then { s with piece_y := s.piece_y + 1 } else s)
  | Move.rotate => some (rotate_piece s)
  | Move.hold => hold_piece_action R s

/-- The body of the timed drop in the main loop:
`if (!check_collision(current_piece, piece_x, piece_y + 1)) piece_y++; else lock_piece();`. -/
def tick (R : Nat → Nat) (s : State) : Option State :=
  if ¬ check_collision s.board s.current_piece s.piece_x (s.piece_y + 1) then
    some { s with piece_y := s.piece_y + 1 }
  else lock_piece R s

/-- What reaches the game while it runs: a non-locking key command, the hard
drop key, the restart key, or a timer tick. -/
inductive Input where
  | key (m : Move)
  | hard_drop
  | restart
  | tick
deriving DecidableEq, Repr

/-- One input.  While `game_state == 0`, `handle_input` and the main loop act
on the piece and the restart key is ignored; in the game-over phase only the
restart key acts (`reset_game`). -/
def play (R : Nat → Nat) (i : Input) (s : State) : Option State :=
  if s.game_state = 0 then
    match i with
    | Input.key m => apply_move R m s
    | Input.hard_drop => drop_piece_hard R s
    | Input.restart => some s
    | Input.tick => tick R s
  else
    match i with
    | Input.restart => reset_game R s
    | _ => some s

/-- A sequence of inputs, applied in order. -/
def run (R : Nat → Nat) : List Input → State → Option State
  | [], s => some s
  | i :: is, s =>
    match play R i s with
    | none => none
    | some s' => run R is s'

/-- `fill_next_queue()` at its only call, from `init_game`, where the static
flag `first` is 1. -/
def fill_next_queue (R : Nat → Nat) (s : State) : Option State :=
  let s1 := shuffle_bag R s
  match get_from_bag R s1 with
  | none => none
  | some (t0, s2) =>
    match get_from_bag R { s2 with next_queue := { s2.next_queue with q0 := t0 } } with
    | none => none
    | some (t1, s3) =>
      match get_from_bag R { s3 with next_queue := { s3.next_queue with q1 := t1 } } with
      | none => none
      | some (t2, s4) => some { s4 with next_queue := { s4.next_queue with q2 := t2 } }

/-- `void init_game()` on the game globals: `fill_next_queue(); spawn_piece();`
(seeding `rand()`, reading the high-score file and the terminal set-up are
outside the embedding). -/
def init_game (R : Nat → Nat) (s : State) : Option State :=
  match fill_next_queue R s with
  | none => none
  | some s1 => spawn_piece R s1

/-! ## Vocabulary of the statements -/

/-- A board row with every cell empty. -/
def EMPTY_ROW : List Int := List.replicate BOARD_WIDTH.toNat 0

/-- The board with every cell empty. -/
def EMPTY_BOARD : Board := List.replicate BOARD_HEIGHT.toNat EMPTY_ROW

/-- A row is full when every one of its cells is occupied (non-zero). -/
def is_full_row (r : List Int) : Bool := r.all (fun c => c != 0)

/-- The board with its full rows removed and as many empty rows added on top. -/
def collapse (b : Board) : Board :=
  List.replicate (b.countP is_full_row) EMPTY_ROW ++ b.filter (fun r => !is_full_row r)

/-- Every row has `BOARD_WIDTH` cells. -/
def rows_ok (b : Board) : Prop := ∀ r ∈ b, r.length = BOARD_WIDTH.toNat

instance (b : Board) : Decidable (rows_ok b) :=
  inferInstanceAs (Decidable (∀ r ∈ b, r.length = BOARD_WIDTH.toNat))

/-- The list of rows has the shape of `int board[20][10]`. -/
def board_ok (b : Board) : Prop := b.length = BOARD_HEIGHT.toNat ∧ rows_ok b

instance (b : Board) : Decidable (board_ok b) :=
  inferInstanceAs (Decidable (b.length = BOARD_HEIGHT.toNat ∧ rows_ok b))

/-- The condition under which block `i` of piece `p` placed at origin `(x, y)`
collides: its column is outside `[0, 10)`, or its row is `>= 20`, or it lies on
the board on a non-empty cell. -/
def cell_blocked (b : Board) (p : Tetromino) (x y : Int) (i : Fin 4) : Prop :=
  x + (p.blocks.get i).x < 0 ∨ x + (p.blocks.get i).x ≥ 10 ∨ y + (p.blocks.get i).y ≥ 20 ∨
  (0 ≤ x + (p.blocks.get i).x ∧ x + (p.blocks.get i).x < 10 ∧
   0 ≤ y + (p.blocks.get i).y ∧ y + (p.blocks.get i).y < 20 ∧
   b.get (y + (p.blocks.get i).y).toNat (x + (p.blocks.get i).x).toNat ≠ 0)

/-- The clockwise quarter turn about `c`: `(x, y) -> (cx - (y - cy), cy + (x - cx))`. -/
def turn (c : Point) (q : Point) : Point := ⟨c.x - (q.y - c.y), c.y + (q.x - c.x)⟩

/-- The seven kind indices, the contents of `bag` before the swaps. -/
def KINDS : List Int := [0, 1, 2, 3, 4, 5, 6]

/-- The entry `SHAPES[k]` for a kind index `k` in range. -/
def shape_of (k : Int) : Tetromino := (SHAPES[k.toNat]?).getD (mkShape 0 0 0 0 0 0 0 0 0 "" 0)

/-- The pieces returned by `n` successive calls of `get_from_bag`, in order,
and the state after them. -/
def draws (R : Nat → Nat) : Nat → State → Option (List Tetromino × State)
  | 0, s => some ([], s)
  | n + 1, s =>
    match get_from_bag R s with
    | none => none
    | some (p, s1) =>
      match draws R n s1 with
      | none => none
      | some (ps, s2) => some (p :: ps, s2)

/-- The bag is `int bag[7]` holding kind indices in `0..6` and the cursor is
not negative: the reads `bag[bag_head]` and `SHAPES[bag[bag_head]]` of
`get_from_bag` are then in bounds. -/
def bag_ok (s : State) : Prop :=
  s.bag.length = 7 ∧ 0 ≤ s.bag_head ∧ ∀ k ∈ s.bag, 0 ≤ k ∧ k < 7

instance (s : State) : Decidable (bag_ok s) :=
  inferInstanceAs (Decidable (s.bag.length = 7 ∧ 0 ≤ s.bag_head ∧ ∀ k ∈ s.bag, 0 ≤ k ∧ k < 7))

/-- The state after the test `if (bag_head >= 7) shuffle_bag();` of
`get_from_bag`. -/
def bag_ready (R : Nat → Nat) (s : State) : State :=
  if s.bag_head ≥ 7 then shuffle_bag R s else s

/-- The kind index `bag[bag_head]` that the next `get_from_bag` reads. -/
def next_kind (R : Nat → Nat) (s : State) : Int :=
  (bag_ready R s).bag.getD (bag_ready R s).bag_head.toNat 0

/-- The hold slot is empty (`-1`) or holds a kind index in `0..6`: the read
`SHAPES[temp]` of `hold_piece_action` is then in bounds. -/
def hold_ok (s : State) : Prop := s.hold_idx = -1 ∨ (0 ≤ s.hold_idx ∧ s.hold_idx < 7)

instance (s : State) : Decidable (hold_ok s) :=
  inferInstanceAs (Decidable (s.hold_idx = -1 ∨ (0 ≤ s.hold_idx ∧ s.hold_idx < 7)))

/-- What `spawn_piece` does to a state `s`, giving `s'`: the front of the
queue becomes the active piece at the spawn origin `(3, 0)`, the queue moves
forward and is refilled from the bag, the hold lock is cleared, the phase
becomes 1 (game over) exactly when the new piece collides, and the board and
the counters are kept. -/
structure Spawned (R : Nat → Nat) (s s' : State) : Prop where
  board : s'.board = s.board
  current : s'.current_piece = s.next_queue.q0
  px : s'.piece_x = 3
  py : s'.piece_y = 0
  locked : s'.hold_locked = 0
  hold : s'.hold_idx = s.hold_idx
  score : s'.score = s.score
  lines : s'.lines_cleared_total = s.lines_cleared_total
  level : s'.level = s.level
  q0 : s'.next_queue.q0 = s.next_queue.q1
  q1 : s'.next_queue.q1 = s.next_queue.q2
  q2 : s'.next_queue.q2 = shape_of (next_kind R s)
  kind : 0 ≤ next_kind R s ∧ next_kind R s < 7
  bag : s'.bag = (bag_ready R s).bag
  head : s'.bag_head = (bag_ready R s).bag_head + 1
  calls : s'.rand_calls = (bag_ready R s).rand_calls
  phase : s'.game_state = if check_collision s.board s.next_queue.q0 3 0 then 1 else s.game_state
  ok : bag_ok s'

/-- The number of hold commands that change the state while the commands `ms`
run from `s` (counting stops if a command is undefined). -/
def hold_changes (R : Nat → Nat) : List Move → State → Nat
  | [], _ => 0
  | m :: ms, s =>
    match apply_move R m s with
    | none => 0
    | some s' => (if m = Move.hold ∧ s' ≠ s then 1 else 0) + hold_changes R ms s'

/-! ## Sample rand() values, boards and states -/

/-- A sample sequence of `rand()` values. -/
def R0 : Nat → Nat := fun n => 7 * n + 3

/-- The zero-initialised `Tetromino` of a C global. -/
def ZERO_PIECE : Tetromino := mkShape 0 0 0 0 0 0 0 0 0 "" 0

/-- The globals as the C initialisers leave them at program start. -/
def INIT : State :=
  { board := List.replicate 20 (List.replicate 10 0), bag := [0, 0, 0, 0, 0, 0, 0], bag_head := 0,
    next_queue := ⟨ZERO_PIECE, ZERO_PIECE, ZERO_PIECE⟩, hold_idx := -1, hold_locked := 0,
    current_piece := ZERO_PIECE, piece_x := 0, piece_y := 0, score := 0, high_score := 0,
    lines_cleared_total := 0, level := 1, game_state := 0, rand_calls := 0 }

/-- A board with rows 2 and 3 full and every other row partly filled. -/
def BOARD_23 : Board :=
  [[1, 0, 0, 0, 0, 0, 0, 0, 0, 0], [0, 2, 0, 0, 0, 0, 0, 0, 0, 0],
   [1, 1, 1, 1, 1, 1, 1, 1, 1, 1], [2, 2, 2, 2, 2, 2, 2, 2, 2, 2]]
  ++ List.replicate 16 [0, 0, 0, 0, 0, 0, 0, 0, 0, 3]

/-- A state with the I piece upright against the right wall: the program-start
globals with the active piece `rotated (shape_of 0)` at `(8, 5)`. -/
def WALL_STATE : State :=
  { INIT with current_piece := rotated (shape_of 0), piece_x := 8, piece_y := 5 }

/-- A state with the T piece in the open: the program-start globals with the
active piece `shape_of 5` at `(3, 5)`. -/
def OPEN_STATE : State :=
  { INIT with current_piece := shape_of 5, piece_x := 3, piece_y := 5 }

/-- A state in mid-game: a shuffled bag with four kinds drawn, the O piece
active at the spawn origin, an empty hold slot, level 3 with 25 lines. -/
def PLAY_STATE : State :=
  { board := List.replicate 20 (List.replicate 10 0), bag := [3, 0, 6, 5, 2, 4, 1], bag_head := 4,
    next_queue := ⟨shape_of 0, shape_of 6, shape_of 5⟩, hold_idx := -1, hold_locked := 0,
    current_piece := shape_of 3, piece_x := 3, piece_y := 0, score := 1000, high_score := 5000,
    lines_cleared_total := 25, level := 3, game_state := 0, rand_calls := 6 }

/-- The state `PLAY_STATE` with the I piece in the hold slot. -/
def HELD_STATE : State := { PLAY_STATE with hold_idx := 0 }

/-- A state about to clear four rows at level 3: rows 16..19 are full except
for column 0, and the upright I piece stands in column 0 on rows 16..19. -/
def LOCK4_STATE : State :=
  { PLAY_STATE with
    board := List.replicate 16 (List.replicate 10 0)
              ++ List.replicate 4 [0, 1, 1, 1, 1, 1, 1, 1, 1, 1],
    current_piece := rotated (shape_of 0), piece_x := -1, piece_y := 16 }

/-- A used state: `LOCK4_STATE` after a game over, with the hold slot taken
and locked. -/
def USED_STATE : State :=
  { LOCK4_STATE with game_state := 1, hold_idx := 2, hold_locked := 1, bag_head := 9 }

/-- The state `reset_game` reaches from the program-start globals with the
`rand()` values `R0`. -/
def START_STATE : State :=
  { board :=
      List.replicate 20 [0, 0, 0, 0, 0, 0, 0, 0, 0, 0],
    bag := [5, 6, 1, 0, 2, 4, 3], bag_head := 4,
    next_queue := ⟨shape_of 6, shape_of 1, shape_of 0⟩, hold_idx := -1, hold_locked := 0,
    current_piece := shape_of 5, piece_x := 3, piece_y := 0, score := 0, high_score := 0,
    lines_cleared_total := 0, level := 1, game_state := 0, rand_calls := 6 }

/-- The inputs of a game played from `START_STATE`: each piece is moved to
the right, some after a rotation, lowered with soft drops onto the stack in
columns 6..9 and locked by a timer tick; the first I piece is put on hold. -/
def TOWER_TRACE : List Input :=
  [Input.key Move.rotate] ++ List.replicate 3 (Input.key Move.right) ++
  List.replicate 16 (Input.key Move.down) ++ [Input.tick] ++ [Input.key Move.rotate] ++
  List.replicate 3 (Input.key Move.right) ++ List.replicate 15 (Input.key Move.down) ++
  [Input.tick] ++ List.replicate 3 (Input.key Move.right) ++
  List.replicate 12 (Input.key Move.down) ++ [Input.tick] ++ [Input.key Move.hold] ++
  [Input.key Move.rotate] ++ List.replicate 3 (Input.key Move.right) ++
  List.replicate 8 (Input.key Move.down) ++ [Input.tick] ++ [Input.key Move.rotate] ++
  List.replicate 2 (Input.key Move.right) ++ List.replicate 9 (Input.key Move.down) ++
  [Input.tick] ++ List.replicate 2 (Input.key Move.right) ++
  List.replicate 5 (Input.key Move.down) ++ [Input.tick] ++
  List.replicate 3 (Input.key Move.right) ++ List.replicate 3 (Input.key Move.down) ++
  [Input.tick] ++ List.replicate 3 (Input.key Move.right) ++ [Input.key Move.down] ++
  [Input.tick] ++ List.replicate 3 (Input.key Move.right) ++ [Input.tick]

/-- A Playing state reached by play from `START_STATE`: the stack in columns
6..9 has reached row 0, the L piece is active at the spawn origin, where it
does not collide, the I piece is in the hold slot and hold is available. -/
def TOWER_STATE : State :=
  { board :=
      [ [0, 0, 0, 0, 0, 0, 2, 0, 0, 0],
        [0, 0, 0, 0, 0, 0, 2, 2, 2, 0],
        [0, 0, 0, 0, 0, 0, 1, 1, 1, 1],
        [0, 0, 0, 0, 0, 0, 7, 7, 0, 0],
        [0, 0, 0, 0, 0, 0, 0, 7, 7, 0],
        [0, 0, 0, 0, 0, 0, 4, 4, 0, 0],
        [0, 0, 0, 0, 0, 0, 4, 4, 0, 0],
        [0, 0, 0, 0, 0, 0, 5, 0, 0, 0],
        [0, 0, 0, 0, 0, 0, 5, 5, 0, 0],
        [0, 0, 0, 0, 0, 0, 3, 5, 0, 0],
        [0, 0, 0, 0, 0, 0, 3, 0, 0, 0],
        [0, 0, 0, 0, 0, 0, 3, 3, 0, 0],
        [0, 0, 0, 0, 0, 0, 2, 0, 0, 0],
        [0, 0, 0, 0, 0, 0, 2, 2, 2, 0],
        [0, 0, 0, 0, 0, 0, 0, 7, 0, 0],
        [0, 0, 0, 0, 0, 0, 7, 7, 0, 0],
        [0, 0, 0, 0, 0, 0, 7, 0, 0, 0],
        [0, 0, 0, 0, 0, 0, 6, 0, 0, 0],
        [0, 0, 0, 0, 0, 0, 6, 6, 0, 0],
        [0, 0, 0, 0, 0, 0, 6, 0, 0, 0] ],
    bag := [6, 0, 1, 2, 5, 4, 3], bag_head := 7,
    next_queue := ⟨shape_of 5, shape_of 4, shape_of 3⟩, hold_idx := 0, hold_locked := 0,
    current_piece := shape_of 2, piece_x := 3, piece_y := 0, score := 0, high_score := 0,
    lines_cleared_total := 0, level := 1, game_state := 0, rand_calls := 12 }

/-- No `int` operation of the scoring block of `lock_piece` overflows when `n`
rows are cleared from `s`: the new line total, the product `points[n] * level`
and the new score all lie in `[INT_MIN, INT_MAX]`. -/
def no_overflow (s : State) (n : Nat) : Prop :=
  s.lines_cleared_total + (n : Int) ≤ INT_MAX ∧
  (INT_MIN ≤ points.getD n 0 * s.level ∧ points.getD n 0 * s.level ≤ INT_MAX) ∧
  (INT_MIN ≤ s.score + points.getD n 0 * s.level ∧
    s.score + points.getD n 0 * s.level ≤ INT_MAX)

instance (s : State) (n : Nat) : Decidable (no_overflow s n) :=
  inferInstanceAs (Decidable (_ ∧ (_ ∧ _) ∧ (_ ∧ _)))

/-- The state `LOCK4_STATE` with the counters of a game in which 3662 clears of
four rows have been made: 14648 lines, level 1465, score 2146811200. -/
def OVERFLOW_STATE : State :=
  { LOCK4_STATE with lines_cleared_total := 14648, level := 1465, score := 2146811200,
                     high_score := 2146811200 }

/-- The input `i` at state `s` makes the program call `lock_piece`: a hard
drop, or a timer tick with the piece blocked one row lower, while
`game_state == 0`. -/
def lock_event (i : Input) (s : State) : Bool :=
  decide (s.game_state = 0) &&
    (match i with
     | Input.hard_drop => true
     | Input.tick => check_collision s.board s.current_piece s.piece_x (s.piece_y + 1)
     | _ => false)

/-- The input `i` at state `s` makes the program call `reset_game`: the
restart key in the game-over phase. -/
def reset_event (i : Input) (s : State) : Bool :=
  decide (s.game_state ≠ 0) && decide (i = Input.restart)

/-- Counts over a run of inputs: calls of `lock_piece`, calls of `reset_game`,
and hold commands that change the state. -/
structure Tally where
  locks : Nat
  resets : Nat
  holds : Nat
deriving DecidableEq, Repr

/-- The counts of the run of `inputs` from `s` (counting stops if an input is
undefined). -/
def tally (R : Nat → Nat) : List Input → State → Tally
  | [], _ => ⟨0, 0, 0⟩
  | i :: rest, s =>
    match play R i s with
    | none => ⟨0, 0, 0⟩
    | some s' =>
      ⟨(tally R rest s').locks + (if lock_event i s then 1 else 0),
       (tally R rest s').resets + (if reset_event i s then 1 else 0),
       (tally R rest s').holds + (if i = Input.key Move.hold ∧ s' ≠ s then 1 else 0)⟩

/-- The inputs of a third game played from `START_STATE`, up to the tick that
locks its seventh piece: the pieces are stacked in columns 6 and 7 up to
row 1. -/
def BRINK_PREFIX : List Input :=
  [Input.key Move.rotate] ++ List.replicate 3 (Input.key Move.right) ++
  List.replicate 16 (Input.key Move.down) ++ [Input.tick] ++ [Input.key Move.rotate] ++
  List.replicate 3 (Input.key Move.right) ++ List.replicate 15 (Input.key Move.down) ++
  [Input.tick] ++ List.replicate 3 (Input.key Move.right) ++
  List.replicate 12 (Input.key Move.down) ++ [Input.tick] ++ [Input.key Move.rotate] ++
  List.replicate 2 (Input.key Move.right) ++ List.replicate 8 (Input.key Move.down) ++
  [Input.tick] ++ [Input.key Move.rotate] ++ List.replicate 3 (Input.key Move.right) ++
  List.replicate 4 (Input.key Move.down) ++ [Input.tick] ++ [Input.key Move.rotate] ++
  List.replicate 2 (Input.key Move.right) ++ List.replicate 5 (Input.key Move.down) ++
  [Input.tick] ++ List.replicate 2 (Input.key Move.right) ++ [Input.key Move.down]

/-- A Playing state reached from `START_STATE` by `BRINK_PREFIX` and one tick,
which locks a piece: the Z piece is active at the spawn origin, the hold slot
is empty and unlocked, the I piece is at the front of the queue and the cell
`(6, 1)` that it needs at the spawn origin is occupied. -/
def BRINK_STATE : State :=
  { board :=
      [ [0, 0, 0, 0, 0, 0, 0, 0, 0, 0],
        [0, 0, 0, 0, 0, 0, 4, 4, 0, 0],
        [0, 0, 0, 0, 0, 0, 4, 4, 0, 0],
        [0, 0, 0, 0, 0, 0, 5, 0, 0, 0],
        [0, 0, 0, 0, 0, 0, 5, 5, 0, 0],
        [0, 0, 0, 0, 0, 0, 3, 5, 0, 0],
        [0, 0, 0, 0, 0, 0, 3, 0, 0, 0],
        [0, 0, 0, 0, 0, 0, 3, 3, 0, 0],
        [0, 0, 0, 0, 0, 0, 1, 0, 0, 0],
        [0, 0, 0, 0, 0, 0, 1, 0, 0, 0],
        [0, 0, 0, 0, 0, 0, 1, 0, 0, 0],
        [0, 0, 0, 0, 0, 0, 1, 0, 0, 0],
        [0, 0, 0, 0, 0, 0, 2, 0, 0, 0],
        [0, 0, 0, 0, 0, 0, 2, 2, 2, 0],
        [0, 0, 0, 0, 0, 0, 0, 7, 0, 0],
        [0, 0, 0, 0, 0, 0, 7, 7, 0, 0],
        [0, 0, 0, 0, 0, 0, 7, 0, 0, 0],
        [0, 0, 0, 0, 0, 0, 6, 0, 0, 0],
        [0, 0, 0, 0, 0, 0, 6, 6, 0, 0],
        [0, 0, 0, 0, 0, 0, 6, 0, 0, 0] ],
    bag := [6, 0, 1, 2, 5, 4, 3], bag_head := 4,
    next_queue := ⟨shape_of 0, shape_of 1, shape_of 2⟩, hold_idx := -1, hold_locked := 0,
    current_piece := shape_of 6, piece_x := 3, piece_y := 0, score := 0, high_score := 0,
    lines_cleared_total := 0, level := 1, game_state := 0, rand_calls := 12 }

/-! ## Reachable states -/

/-- The part of the reachable-state invariant that does not concern the
active piece: the board is 20x10 and has no full row, the bag and the hold
slot are well-formed and the queue holds `SHAPES` entries. -/
structure Base (s : State) : Prop where
  board : board_ok s.board
  nofull : s.board.countP is_full_row = 0
  bag : bag_ok s
  hold : hold_ok s
  q0 : s.next_queue.q0 ∈ SHAPES
  q1 : s.next_queue.q1 ∈ SHAPES
  q2 : s.next_queue.q2 ∈ SHAPES

/-- The invariant of the reachable states: `Base`, and the active piece has a
kind index in `0..6`, its rotation centre `blocks[1]` has a non-negative row
offset, `piece_y` is not negative and every cell of the piece lies inside the
columns and above the floor. -/
structure Inv (s : State) : Prop where
  base : Base s
  kind : 0 ≤ s.current_piece.type_idx ∧ s.current_piece.type_idx < 7
  center : 0 ≤ (s.current_piece.blocks.get 1).y
  py : 0 ≤ s.piece_y
  inside : ∀ i : Fin 4,
    0 ≤ s.piece_x + (s.current_piece.blocks.get i).x ∧
    s.piece_x + (s.current_piece.blocks.get i).x < 10 ∧
    s.piece_y + (s.current_piece.blocks.get i).y < 20

/-- The state `s` is reachable from `reset_game` by game operations: with the
`rand()` values `R`, some call of `reset_game` (from any prior state with a
20x10 board and a 7-entry bag) followed by some sequence of inputs (moves,
soft drops, rotations, holds, hard drops, ticks, restarts after a game over)
ends in `s`. -/
def Reachable (R : Nat → Nat) (s : State) : Prop :=
  ∃ (s0 s1 : State) (inputs : List Input),
    board_ok s0.board ∧ s0.bag.length = 7 ∧ reset_game R s0 = some s1 ∧ run R inputs s1 = some s
/-- The inputs of a second game played from `START_STATE`: seven pieces are
stacked in columns 7..9 up to row 1, then the Z piece is rotated once at the
spawn row and moved four columns to the right. -/
def DROP_TRACE : List Input :=
  [Input.key Move.rotate] ++ List.replicate 4 (Input.key Move.right) ++
  List.replicate 16 (Input.key Move.down) ++ [Input.tick] ++ [Input.key Move.rotate] ++
  List.replicate 4 (Input.key Move.right) ++ List.replicate 15 (Input.key Move.down) ++
  [Input.tick] ++ [Input.key Move.rotate] ++ List.replicate 5 (Input.key Move.right) ++
  List.replicate 10 (Input.key Move.down) ++ [Input.tick] ++ [Input.key Move.rotate] ++
  List.replicate 4 (Input.key Move.right) ++ List.replicate 7 (Input.key Move.down) ++
  [Input.tick] ++ [Input.key Move.rotate] ++ List.replicate 4 (Input.key Move.right) ++
  List.replicate 3 (Input.key Move.down) ++ [Input.tick] ++ [Input.key Move.rotate] ++
  List.replicate 3 (Input.key Move.right) ++ List.replicate 4 (Input.key Move.down) ++
  [Input.tick] ++ List.replicate 4 (Input.key Move.right) ++ [Input.key Move.down] ++
  [Input.tick] ++ [Input.key Move.rotate] ++ List.replicate 4 (Input.key Move.right)

/-- A Playing state reached by play from `START_STATE`: the Z piece, rotated
once at the spawn row, stands at `(7, 0)` with its first block in row -1 and
rests on the stack (cell `(8, 1)` is occupied). -/
def DROP_STATE : State :=
  { board :=
      [ [0, 0, 0, 0, 0, 0, 0, 0, 0, 0],
        [0, 0, 0, 0, 0, 0, 0, 0, 4, 4],
        [0, 0, 0, 0, 0, 0, 0, 5, 4, 4],
        [0, 0, 0, 0, 0, 0, 0, 5, 5, 0],
        [0, 0, 0, 0, 0, 0, 0, 3, 5, 0],
        [0, 0, 0, 0, 0, 0, 0, 3, 0, 0],
        [0, 0, 0, 0, 0, 0, 0, 3, 3, 0],
        [0, 0, 0, 0, 0, 0, 0, 0, 1, 0],
        [0, 0, 0, 0, 0, 0, 0, 0, 1, 0],
        [0, 0, 0, 0, 0, 0, 0, 0, 1, 0],
        [0, 0, 0, 0, 0, 0, 0, 0, 1, 0],
        [0, 0, 0, 0, 0, 0, 0, 0, 2, 2],
        [0, 0, 0, 0, 0, 0, 0, 0, 2, 0],
        [0, 0, 0, 0, 0, 0, 0, 0, 2, 0],
        [0, 0, 0, 0, 0, 0, 0, 0, 7, 0],
        [0, 0, 0, 0, 0, 0, 0, 7, 7, 0],
        [0, 0, 0, 0, 0, 0, 0, 7, 0, 0],
        [0, 0, 0, 0, 0, 0, 0, 6, 0, 0],
        [0, 0, 0, 0, 0, 0, 0, 6, 6, 0],
        [0, 0, 0, 0, 0, 0, 0, 6, 0, 0] ],
    bag := [6, 0, 1, 2, 5, 4, 3], bag_head := 4,
    next_queue := ⟨shape_of 0, shape_of 1, shape_of 2⟩, hold_idx := -1, hold_locked := 0,
    current_piece := rotated (shape_of 6), piece_x := 7, piece_y := 0, score := 0, high_score := 0,
    lines_cleared_total := 0, level := 1, game_state := 0, rand_calls := 12 }

/-- What `lock_piece` does with the cells of the active piece of `s`: every
cell lies inside the columns `[0, 10)` and above the floor (row `< 20`), and
the first loop of `lock_piece` writes every cell whose row is `>= 0` into the
board with the colour tag of the piece. -/
def cells_locked (s : State) : Prop :=
  ∀ i : Fin 4,
    (0 ≤ s.piece_x + (s.current_piece.blocks.get i).x ∧
     s.piece_x + (s.current_piece.blocks.get i).x < 10 ∧
     s.piece_y + (s.current_piece.blocks.get i).y < 20) ∧
    (0 ≤ s.piece_y + (s.current_piece.blocks.get i).y →
      (write_piece s.current_piece s.piece_x s.piece_y s.board).get
          (s.piece_y + (s.current_piece.blocks.get i).y).toNat
          (s.piece_x + (s.current_piece.blocks.get i).x).toNat
        = s.current_piece.color_idx)

/-- The number of board cells that carry the colour tag `c`. -/
def colour_count (b : Board) (c : Int) : Nat := (b.map (fun r => r.count c)).sum

/-! ## Row clearing (C1) -/

theorem width_eq : BOARD_WIDTH.toNat = 10 := rfl

theorem row_cases {r : List Int} (h : r.length = 10) :
    ∃ a0 a1 a2 a3 a4 a5 a6 a7 a8 a9, r = [a0, a1, a2, a3, a4, a5, a6, a7, a8, a9] := by
  match r, h with
  | [a0, a1, a2, a3, a4, a5, a6, a7, a8, a9], _ => exact ⟨a0, a1, a2, a3, a4, a5, a6, a7, a8, a9, rfl⟩

theorem row_full_eq (b : Board) (y : Nat) (h : (b.getD y []).length = 10) :
    row_full b y = is_full_row (b.getD y []) := by
  obtain ⟨a0, a1, a2, a3, a4, a5, a6, a7, a8, a9, hr⟩ := row_cases h
  unfold row_full is_full_row Board.get
  rw [hr]
  rfl

theorem foldl_set_const (g : Nat → Int) (r : List Int) (h : r.length = 10) :
    (List.range BOARD_WIDTH.toNat).foldl (fun acc xx => acc.set xx (g xx)) r
      = (List.range BOARD_WIDTH.toNat).map g := by
  obtain ⟨a0, a1, a2, a3, a4, a5, a6, a7, a8, a9, hr⟩ := row_cases h
  rw [hr]
  rfl

theorem set_getD_self {α : Type} (d : α) : ∀ (b : List α) (y : Nat), b.set y (b.getD y d) = b := by
  intro b
  induction b with
  | nil => intro y; simp
  | cons a t ih =>
    intro y
    cases y with
    | zero => simp
    | succ n => simpa using ih n

theorem foldl_put_const (g : Nat → Int) (y : Nat) (xs : List Nat) :
    ∀ b : Board, y < b.length →
      xs.foldl (fun acc xx => acc.put y xx (g xx)) b
        = b.set y (xs.foldl (fun r xx => r.set xx (g xx)) (b.getD y [])) := by
  induction xs with
  | nil => intro b hy; simpa using (set_getD_self [] b y).symm
  | cons x xs ih =>
    intro b hy
    simp only [List.foldl_cons]
    rw [ih _ (by simpa [Board.put] using hy)]
    simp [Board.put, hy]

theorem foldl_put_copy (y : Nat) (hy0 : 0 < y) (xs : List Nat) :
    ∀ b : Board, y < b.length →
      xs.foldl (fun acc xx => acc.put y xx (acc.get (y - 1) xx)) b
        = b.set y (xs.foldl (fun r xx => r.set xx ((b.getD (y - 1) []).getD xx 0)) (b.getD y [])) := by
  induction xs with
  | nil => intro b hy; simpa using (set_getD_self [] b y).symm
  | cons x xs ih =>
    intro b hy
    simp only [List.foldl_cons]
    rw [ih _ (by simpa [Board.put] using hy)]
    have hne : y ≠ y - 1 := by omega
    simp [Board.put, Board.get, hy, hne]


theorem copy_row_eq (b : Board) (y : Nat) (hy0 : 0 < y) (hy : y < b.length)
    (hr : rows_ok b) : copy_row b y = b.set y (b.getD (y - 1) []) := by
  unfold copy_row
  rw [foldl_put_copy y hy0 _ b hy]
  have h1 : (b.getD y []).length = 10 := by
    rw [List.getD_eq_getElem _ _ hy]; exact hr _ (List.getElem_mem _)
  have h2 : (b.getD (y - 1) []).length = 10 := by
    rw [List.getD_eq_getElem _ _ (by omega : y - 1 < b.length)]; exact hr _ (List.getElem_mem _)
  rw [foldl_set_const _ _ h1]
  congr 1
  obtain ⟨a0, a1, a2, a3, a4, a5, a6, a7, a8, a9, hr⟩ := row_cases h2
  rw [hr]
  rfl

theorem clear_top_row_eq (b : Board) (hy : 0 < b.length) (hr : rows_ok b) :
    clear_top_row b = b.set 0 EMPTY_ROW := by
  unfold clear_top_row
  rw [foldl_put_const (fun _ => 0) 0 _ b hy]
  have h1 : (b.getD 0 []).length = 10 := by
    rw [List.getD_eq_getElem _ _ hy]; exact hr _ (List.getElem_mem _)
  rw [foldl_set_const _ _ h1]
  rfl

theorem rows_ok_set (b : Board) (y : Nat) (r : List Int) (hr : rows_ok b) (h : r.length = 10) :
    rows_ok (b.set y r) := by
  intro r' hm
  rcases List.mem_or_eq_of_mem_set hm with h1 | h1
  · exact hr _ h1
  · rw [h1]; exact h

theorem eraseIdx_set_succ {α : Type} (d : α) : ∀ (b : List α) (m : Nat), m + 1 < b.length →
    (b.set (m + 1) (b.getD m d)).eraseIdx m = b.eraseIdx (m + 1) := by
  intro b
  induction b with
  | nil => intro m h; simp at h
  | cons a t ih =>
    intro m h
    cases m with
    | zero =>
      cases t with
      | nil => simp at h
      | cons c t2 => simp
    | succ n =>
      have := ih n (by simpa using h)
      simpa using this

theorem shift_clear_eq : ∀ (y : Nat) (b : Board), y < b.length → rows_ok b →
    clear_top_row (shift_rows b y) = EMPTY_ROW :: b.eraseIdx y := by
  intro y
  induction y with
  | zero =>
    intro b hy hr
    rw [shift_rows, clear_top_row_eq b hy hr]
    cases b with
    | nil => simp at hy
    | cons a t => simp
  | succ m ih =>
    intro b hy hr
    rw [shift_rows, copy_row_eq b (m + 1) (by omega) hy hr]
    have hm : (b.getD m []).length = 10 := by
      rw [List.getD_eq_getElem _ _ (by omega : m < b.length)]; exact hr _ (List.getElem_mem _)
    rw [Nat.add_sub_cancel, ih _ (by simpa using (by omega : m < b.length)) (rows_ok_set b _ _ hr hm),
      eraseIdx_set_succ [] b m hy]

theorem is_full_row_empty : is_full_row EMPTY_ROW = false := by decide

theorem take_eraseIdx_self {α : Type} (b : List α) (m : Nat) (h : m < b.length) :
    (b.eraseIdx m).take m = b.take m := by
  rw [List.eraseIdx_eq_take_drop_succ, List.take_left']
  simp; omega

theorem drop_eraseIdx_self {α : Type} (b : List α) (m : Nat) (h : m < b.length) :
    (b.eraseIdx m).drop m = b.drop (m + 1) := by
  rw [List.eraseIdx_eq_take_drop_succ, List.drop_left']
  simp; omega

theorem rows_ok_shift (b : Board) (m : Nat) (hr : rows_ok b) :
    rows_ok (EMPTY_ROW :: b.eraseIdx m) := by
  intro r hm
  rcases List.mem_cons.mp hm with h | h
  · rw [h]; rfl
  · exact hr _ (List.mem_of_mem_eraseIdx h)

theorem clear_loop_spec : ∀ (fuel n : Nat) (b : Board) (lines : Int),
    rows_ok b → n ≤ b.length →
    n + (b.take n).countP is_full_row + 1 ≤ fuel →
    clear_loop fuel ((n : Int) - 1) b lines =
      some (List.replicate ((b.take n).countP is_full_row) EMPTY_ROW
              ++ ((b.take n).filter (fun r => !is_full_row r) ++ b.drop n),
            lines + ((b.take n).countP is_full_row : Nat)) := by
  intro fuel
  induction fuel with
  | zero => intro n b lines _ _ hf; omega
  | succ fuel ih =>
    intro n b lines hr hn hf
    cases n with
    | zero => simp [clear_loop]
    | succ m =>
      have hm : m < b.length := by omega
      have hrow : (b.getD m []).length = 10 := by
        rw [List.getD_eq_getElem _ _ hm]; exact hr _ (List.getElem_mem _)
      have htake : b.take (m + 1) = b.take m ++ [b.getD m []] := by
        rw [List.take_succ, List.getD_eq_getElem _ _ hm, List.getElem?_eq_getElem hm]; rfl
      have hdrop : b.drop m = b.getD m [] :: b.drop (m + 1) := by
        rw [List.getD_eq_getElem _ _ hm]; exact List.drop_eq_getElem_cons hm
      have hy : ((m + 1 : Nat) : Int) - 1 = (m : Int) := by push_cast; ring
      rw [hy, clear_loop]
      have hge : (m : Int) ≥ 0 := Int.ofNat_nonneg m
      rw [if_pos hge, Int.toNat_ofNat, row_full_eq b m hrow]
      rw [htake] at hf
      rw [htake]
      generalize b.getD m [] = row at *
      by_cases hfull : is_full_row row = true
      · rw [if_pos hfull, shift_clear_eq m b hm hr]
        have hy2 : (m : Int) + 1 - 1 = ((m + 1 : Nat) : Int) - 1 := by push_cast; ring
        have hlen : (b.eraseIdx m).length = b.length - 1 := List.length_eraseIdx_of_lt hm
        have hc1 : List.countP is_full_row [row] = 1 := by simp [hfull]
        have hc0 : List.countP is_full_row (EMPTY_ROW :: b.take m) = (b.take m).countP is_full_row :=
          List.countP_cons_of_neg _ _ (by simp [is_full_row_empty])
        rw [List.countP_append, hc1] at hf
        rw [hy2, ih (m + 1) _ (lines + 1) (rows_ok_shift b m hr) (by simp [hlen]; omega)]
        · rw [List.take_succ_cons, List.drop_succ_cons, take_eraseIdx_self b m hm,
            drop_eraseIdx_self b m hm, hc0,
            List.filter_cons_of_pos (by simp [is_full_row_empty]), List.countP_append,
            List.filter_append, hc1, List.replicate_succ']
          simp [hfull]
          ring
        · rw [List.take_succ_cons, take_eraseIdx_self b m hm, hc0]
          omega
      · rw [if_neg hfull]
        have hc1 : List.countP is_full_row [row] = 0 := by simp [hfull]
        rw [List.countP_append, hc1] at hf
        rw [ih m b lines hr (by omega) (by omega), List.countP_append, hc1, List.filter_append, hdrop]
        simp [hfull]

theorem clear_rows_of_fuel (b : Board) (hb : board_ok b) (fuel : Nat) (hf : CLEAR_FUEL ≤ fuel) :
    clear_rows fuel b =
      some (List.replicate (b.countP is_full_row) EMPTY_ROW ++ b.filter (fun r => !is_full_row r),
            ((b.countP is_full_row : Nat) : Int)) := by
  obtain ⟨hlen, hr⟩ := hb
  have h20 : BOARD_HEIGHT.toNat = 20 := rfl
  have hcount : b.countP is_full_row ≤ b.length := List.countP_le_length _
  have hfuel : CLEAR_FUEL = 41 := rfl
  have htake : b.take 20 = b := List.take_of_length_le (by omega)
  have hdrop : b.drop 20 = [] := List.drop_of_length_le (by omega)
  have h := clear_loop_spec fuel 20 b 0 hr (by omega) (by rw [htake]; omega)
  rw [htake, hdrop] at h
  unfold clear_rows
  have hy : BOARD_HEIGHT - 1 = ((20 : Nat) : Int) - 1 := rfl
  rw [hy, h]
  simp

/-- C1. On every 20x10 board (the contents left after the active piece is
written), the row-clearing loop of `lock_piece` terminates (any fuel from
`CLEAR_FUEL` = 41 loop tests on is enough) and returns the board made of `k`
empty rows followed by the non-full rows of the input in their original order,
together with `lines = k`, where `k` is the number of full rows of the input,
adjacent or not. -/
theorem clear_rows_spec (b : Board) (hb : board_ok b) (fuel : Nat) (hf : CLEAR_FUEL ≤ fuel) :
    clear_rows fuel b =
      some (List.replicate (b.countP is_full_row) EMPTY_ROW ++ b.filter (fun r => !is_full_row r),
            ((b.countP is_full_row : Nat) : Int)) :=
  clear_rows_of_fuel b hb fuel hf

/-- Witness of C1: with rows 2 and 3 full and all other rows partial the loop
counts 2, rows 0-1 arrive in rows 2-3, rows 0-1 are empty and rows 4..19 are
unchanged. -/
theorem clear_rows_spec_witness :
    board_ok BOARD_23 ∧ CLEAR_FUEL ≤ CLEAR_FUEL ∧
    clear_rows CLEAR_FUEL BOARD_23 =
      some ([EMPTY_ROW, EMPTY_ROW, [1, 0, 0, 0, 0, 0, 0, 0, 0, 0], [0, 2, 0, 0, 0, 0, 0, 0, 0, 0]]
              ++ List.replicate 16 [0, 0, 0, 0, 0, 0, 0, 0, 0, 3], 2) :=
  ⟨by decide, Nat.le_refl _,
    (clear_rows_spec BOARD_23 (by decide) CLEAR_FUEL (Nat.le_refl _)).trans (by decide)⟩

/-! ## Bag randomiser (C2) -/

theorem set_perm_cons_eraseIdx {α : Type} (a : α) : ∀ (l : List α) (i : Nat), i < l.length →
    (l.set i a).Perm (a :: l.eraseIdx i) := by
  intro l
  induction l with
  | nil => intro i h; simp at h
  | cons c t ih =>
    intro i h
    cases i with
    | zero => simp
    | succ n =>
      have h1 := ih n (by simpa using h)
      simp only [List.set_cons_succ, List.eraseIdx_cons_succ]
      exact (List.Perm.cons c h1).trans (List.Perm.swap a c _)

theorem getD_perm_cons_eraseIdx {α : Type} (d : α) : ∀ (l : List α) (i : Nat), i < l.length →
    l.Perm (l.getD i d :: l.eraseIdx i) := by
  intro l i h
  have h1 := set_perm_cons_eraseIdx (l.getD i d) l i h
  rwa [set_getD_self] at h1

theorem swap_perm {α : Type} (d : α) : ∀ (l : List α) (i j : Nat), i < l.length → j < l.length →
    ((l.set i (l.getD j d)).set j (l.getD i d)).Perm l := by
  intro l
  induction l with
  | nil => intro i j h; simp at h
  | cons c t ih =>
    intro i j hi hj
    cases i with
    | zero =>
      cases j with
      | zero => simp
      | succ n =>
        have hn : n < t.length := by simpa using hj
        have h1 := set_perm_cons_eraseIdx c t n hn
        have h2 := getD_perm_cons_eraseIdx d t n hn
        have h3 : (t.getD n d :: t.set n c).Perm (c :: t) :=
          ((List.Perm.cons _ h1).trans (List.Perm.swap _ _ _)).trans (List.Perm.cons _ h2.symm)
        simpa using h3
    | succ m =>
      cases j with
      | zero =>
        have hm : m < t.length := by simpa using hi
        have h1 := set_perm_cons_eraseIdx c t m hm
        have h2 := getD_perm_cons_eraseIdx d t m hm
        have h3 : (t.getD m d :: t.set m c).Perm (c :: t) :=
          ((List.Perm.cons _ h1).trans (List.Perm.swap _ _ _)).trans (List.Perm.cons _ h2.symm)
        simpa using h3
      | succ n =>
        have h1 := ih m n (by simpa using hi) (by simpa using hj)
        simpa using List.Perm.cons c h1

theorem shuffle_step_perm (R : Nat → Nat) (st : List Int × Nat) (i : Nat) (hi : i < 7)
    (h : st.1.Perm KINDS) : (shuffle_step R st i).1.Perm KINDS := by
  have hlen : st.1.length = 7 := h.length_eq
  have hj : R st.2 % (i + 1) < st.1.length := by
    have := Nat.mod_lt (R st.2) (by omega : i + 1 > 0)
    omega
  exact (swap_perm 0 st.1 i _ (by omega) hj).trans h

theorem shuffle_fold_perm (R : Nat → Nat) : ∀ (is : List Nat) (st : List Int × Nat),
    (∀ i ∈ is, i < 7) → st.1.Perm KINDS → (is.foldl (shuffle_step R) st).1.Perm KINDS := by
  intro is
  induction is with
  | nil => intro st _ h; exact h
  | cons i t ih =>
    intro st hi h
    exact ih _ (fun k hk => hi k (List.mem_cons_of_mem _ hk))
      (shuffle_step_perm R st i (hi i (List.mem_cons_self _ _)) h)

theorem bag_init_eq (bag : List Int) (h : bag.length = 7) :
    (List.range 7).foldl (fun b i => b.set i (i : Int)) bag = KINDS := by
  match bag, h with
  | [_, _, _, _, _, _, _], _ => rfl

theorem shuffle_bag_perm (R : Nat → Nat) (s : State) (h : s.bag.length = 7) :
    (shuffle_bag R s).bag.Perm KINDS := by
  unfold shuffle_bag
  simp only [bag_init_eq s.bag h]
  exact shuffle_fold_perm R _ _ (by decide) (List.Perm.refl _)

theorem shape_of_kinds : KINDS.map shape_of = SHAPES := by decide

theorem shapes_lookup (k : Int) (h0 : 0 ≤ k) (h7 : k < 7) : SHAPES[k.toNat]? = some (shape_of k) := by
  have h : k = 0 ∨ k = 1 ∨ k = 2 ∨ k = 3 ∨ k = 4 ∨ k = 5 ∨ k = 6 := by omega
  rcases h with h | h | h | h | h | h | h <;> subst h <;> rfl

theorem get_from_bag_lt (R : Nat → Nat) (s : State) (h : Nat) (hh : s.bag_head = (h : Int))
    (h7 : h < 7) (k : Int) (hk : s.bag[h]? = some k) (k0 : 0 ≤ k) (k7 : k < 7) :
    get_from_bag R s = some (shape_of k, { s with bag_head := (h : Int) + 1 }) := by
  unfold get_from_bag
  have h1 : ¬ (s.bag_head ≥ 7) := by omega
  have h2 : ¬ (s.bag_head < 0) := by omega
  simp only [h1, if_false, h2]
  rw [hh, Int.toNat_ofNat, hk]
  simp only [not_lt.mpr k0, if_false, shapes_lookup k k0 k7]

theorem draws_from (R : Nat → Nat) : ∀ (n h : Nat) (s : State), s.bag_head = (h : Int) →
    h + n ≤ 7 → s.bag.length = 7 → (∀ k ∈ s.bag, 0 ≤ k ∧ k < 7) →
    draws R n s = some (((s.bag.drop h).take n).map shape_of,
                        { s with bag_head := ((h + n : Nat) : Int) }) := by
  intro n
  induction n with
  | zero =>
    intro h s hh _ _ _
    simp [draws, ← hh]
  | succ n ih =>
    intro h s hh hn hlen hk
    have hlt : h < s.bag.length := by omega
    have hget : s.bag[h]? = some s.bag[h] := List.getElem?_eq_getElem hlt
    have hrange := hk s.bag[h] (List.getElem_mem _)
    rw [draws, get_from_bag_lt R s h hh (by omega) _ hget hrange.1 hrange.2]
    simp only
    rw [ih (h + 1) { s with bag_head := (h : Int) + 1 } (by push_cast; rfl) (by omega) hlen hk]
    simp only [List.drop_eq_getElem_cons hlt, List.take_succ_cons, List.map_cons]
    congr 3
    omega

theorem draws_perm (R : Nat → Nat) (s : State) (hh : s.bag_head = 0) (hp : s.bag.Perm KINDS) :
    ∃ ps s', draws R 7 s = some (ps, s') ∧ ps.Perm SHAPES := by
  have hlen : s.bag.length = 7 := hp.length_eq
  have hk : ∀ k ∈ s.bag, 0 ≤ k ∧ k < 7 := by
    intro k hk
    have : k ∈ KINDS := hp.subset hk
    simp [KINDS] at this
    omega
  refine ⟨_, _, draws_from R 7 0 s (by simpa using hh) (by omega) hlen hk, ?_⟩
  rw [List.drop_zero, List.take_of_length_le (by omega), ← shape_of_kinds]
  exact hp.map _

theorem draws_reshuffle (R : Nat → Nat) (s : State) (h : s.bag_head ≥ 7) (n : Nat) :
    draws R (n + 1) s = draws R (n + 1) (shuffle_bag R s) := by
  have h1 : get_from_bag R s = get_from_bag R (shuffle_bag R s) := by
    have h0 : (shuffle_bag R s).bag_head = 0 := rfl
    have h2 : ¬ ((shuffle_bag R s).bag_head ≥ 7) := by omega
    conv => lhs; unfold get_from_bag
    conv => rhs; unfold get_from_bag
    simp only [h, h2, if_true, if_false]
  rw [draws, draws, h1]

/-- C2. Whatever values `rand()` returns, `shuffle_bag` leaves in `bag[0..6]`
a permutation of the kind indices 0..6 with `bag_head = 0`; seven consecutive
`get_from_bag` draws that start right after a shuffle, or at `bag_head >= 7`
(which forces a reshuffle), all succeed and the seven pieces returned are a
permutation of `SHAPES`, so each of the seven kinds is returned exactly once. -/
theorem bag_cycle_fair (R : Nat → Nat) (s : State) (hlen : s.bag.length = 7) :
    ((shuffle_bag R s).bag.Perm [0, 1, 2, 3, 4, 5, 6] ∧ (shuffle_bag R s).bag_head = 0) ∧
    (∃ ps s', draws R 7 (shuffle_bag R s) = some (ps, s') ∧ ps.Perm SHAPES ∧
        (ps.map (fun p => p.type_idx)).Perm [0, 1, 2, 3, 4, 5, 6]) ∧
    (s.bag_head ≥ 7 →
      ∃ ps s', draws R 7 s = some (ps, s') ∧ ps.Perm SHAPES ∧
        (ps.map (fun p => p.type_idx)).Perm [0, 1, 2, 3, 4, 5, 6]) := by
  have hp := shuffle_bag_perm R s hlen
  obtain ⟨ps, s', hd, hps⟩ := draws_perm R (shuffle_bag R s) rfl hp
  have hty : (ps.map (fun p => p.type_idx)).Perm [0, 1, 2, 3, 4, 5, 6] := by
    have := hps.map (fun p => p.type_idx)
    exact this.trans (List.Perm.of_eq (by decide))
  refine ⟨⟨hp, rfl⟩, ⟨ps, s', hd, hps, hty⟩, ?_⟩
  intro h7
  exact ⟨ps, s', by rw [draws_reshuffle R s h7 6]; exact hd, hps, hty⟩

/-- Witness of C2: from the program-start globals with `bag_head` forced to 7,
seven draws return a permutation of `SHAPES`. -/
theorem bag_cycle_fair_witness :
    ({ INIT with bag_head := 7 } : State).bag.length = 7 ∧
    ∃ ps s', draws R0 7 { INIT with bag_head := 7 } = some (ps, s') ∧ ps.Perm SHAPES ∧
      (ps.map (fun p => p.type_idx)).Perm [0, 1, 2, 3, 4, 5, 6] :=
  ⟨rfl, (bag_cycle_fair R0 { INIT with bag_head := 7 } rfl).2.2 (by decide)⟩

/-! ## Collision (C3) -/

theorem fin4_mem (i : Fin 4) : i ∈ ([0, 1, 2, 3] : List (Fin 4)) := by
  fin_cases i <;> simp

theorem block_collides_iff (b : Board) (p : Tetromino) (x y : Int) (i : Fin 4) :
    block_collides b p x y i = true ↔ cell_blocked b p x y i := by
  unfold block_collides cell_blocked BOARD_WIDTH BOARD_HEIGHT
  simp only []
  split_ifs with h1 h2
  · simp only [true_iff]
    rcases h1 with h | h | h
    · exact Or.inl h
    · exact Or.inr (Or.inl h)
    · exact Or.inr (Or.inr (Or.inl h))
  · simp only [true_iff]
    refine Or.inr (Or.inr (Or.inr ⟨?_, ?_, h2.1, ?_, h2.2⟩)) <;> omega
  · simp only [Bool.false_eq_true, false_iff]
    rintro (h | h | h | ⟨_, _, h3, _, h5⟩)
    · exact h1 (Or.inl h)
    · exact h1 (Or.inr (Or.inl h))
    · exact h1 (Or.inr (Or.inr h))
    · exact h2 ⟨h3, h5⟩

theorem check_collision_true_iff (b : Board) (p : Tetromino) (x y : Int) :
    check_collision b p x y = true ↔ ∃ i : Fin 4, cell_blocked b p x y i := by
  unfold check_collision
  rw [List.any_eq_true]
  constructor
  · rintro ⟨i, _, h⟩
    exact ⟨i, (block_collides_iff b p x y i).mp h⟩
  · rintro ⟨i, h⟩
    exact ⟨i, fin4_mem i, (block_collides_iff b p x y i).mpr h⟩

/-- C3. For every piece, origin and board, `check_collision` returns true iff
one of the four absolute cells `(x + dx, y + dy)` has column `< 0` or `>= 10`,
or row `>= 20`, or lies on the board (row in `[0, 20)`) on a non-empty cell.
A cell with row `< 0` inside the horizontal bounds never causes a collision on
its own: if every cell is either such a cell or lies on the board on an empty
cell, the result is false. -/
theorem check_collision_spec (b : Board) (p : Tetromino) (x y : Int) :
    (check_collision b p x y = true ↔
      ∃ i : Fin 4,
        x + (p.blocks.get i).x < 0 ∨ x + (p.blocks.get i).x ≥ 10 ∨ y + (p.blocks.get i).y ≥ 20 ∨
        (0 ≤ x + (p.blocks.get i).x ∧ x + (p.blocks.get i).x < 10 ∧
         0 ≤ y + (p.blocks.get i).y ∧ y + (p.blocks.get i).y < 20 ∧
         b.get (y + (p.blocks.get i).y).toNat (x + (p.blocks.get i).x).toNat ≠ 0)) ∧
    ((∀ i : Fin 4,
        0 ≤ x + (p.blocks.get i).x ∧ x + (p.blocks.get i).x < 10 ∧
        (y + (p.blocks.get i).y < 0 ∨
          (y + (p.blocks.get i).y < 20 ∧
           b.get (y + (p.blocks.get i).y).toNat (x + (p.blocks.get i).x).toNat = 0))) →
      check_collision b p x y = false) := by
  refine ⟨check_collision_true_iff b p x y, ?_⟩
  intro h
  rw [← Bool.not_eq_true, check_collision_true_iff]
  rintro ⟨i, hi⟩
  obtain ⟨h1, h2, h3⟩ := h i
  unfold cell_blocked at hi
  rcases hi with hi | hi | hi | ⟨_, _, h4, _, h5⟩
  · omega
  · omega
  · omega
  · rcases h3 with h3 | ⟨_, h3⟩
    · omega
    · exact h5 h3

/-- Witness of C3: the J piece at the spawn origin of the empty board, raised
one row so that its first block has row -1, does not collide. -/
theorem check_collision_spec_witness :
    check_collision INIT.board (shape_of 1) 3 (-1) = false :=
  (check_collision_spec INIT.board (shape_of 1) 3 (-1)).2 (by decide)

/-! ## Rotation (C9, C10) -/

theorem rotated_blocks (p : Tetromino) (i : Fin 4) :
    (rotated p).blocks.get i = turn (p.blocks.get 1) (p.blocks.get i) := by
  obtain ⟨⟨b0, b1, b2, b3⟩, c, cc, t⟩ := p
  fin_cases i <;> rfl

theorem rotated_fields (p : Tetromino) :
    (rotated p).color_idx = p.color_idx ∧ (rotated p).color_code = p.color_code ∧
    (rotated p).type_idx = p.type_idx := by
  obtain ⟨⟨b0, b1, b2, b3⟩, c, cc, t⟩ := p
  exact ⟨rfl, rfl, rfl⟩

theorem rotated_eq (p : Tetromino) :
    rotated p = { p with blocks := ⟨turn p.blocks.b1 p.blocks.b0, turn p.blocks.b1 p.blocks.b1,
                                    turn p.blocks.b1 p.blocks.b2, turn p.blocks.b1 p.blocks.b3⟩ } := by
  obtain ⟨⟨b0, b1, b2, b3⟩, c, cc, t⟩ := p
  rfl

theorem turn_center (c : Point) : turn c c = c := by
  obtain ⟨x, y⟩ := c
  simp [turn]

theorem turn_four (c q : Point) : turn c (turn c (turn c (turn c q))) = q := by
  obtain ⟨x, y⟩ := q
  obtain ⟨cx, cy⟩ := c
  simp only [turn, Point.mk.injEq]
  constructor <;> ring

theorem rotated_four (p : Tetromino) : rotated (rotated (rotated (rotated p))) = p := by
  obtain ⟨⟨b0, b1, b2, b3⟩, c, cc, t⟩ := p
  simp only [rotated_eq, turn_center, turn_four]

theorem rotate_piece_free (s : State) (h4 : s.current_piece.color_idx ≠ 4)
    (hc : check_collision s.board (rotated s.current_piece) s.piece_x s.piece_y = false) :
    rotate_piece s = { s with current_piece := rotated s.current_piece } := by
  unfold rotate_piece
  simp [h4, hc]

theorem rotate_piece_cases (s : State) :
    (s.current_piece.color_idx = 4 → rotate_piece s = s) ∧
    (s.current_piece.color_idx ≠ 4 →
      (check_collision s.board (rotated s.current_piece) s.piece_x s.piece_y = false →
        rotate_piece s = { s with current_piece := rotated s.current_piece }) ∧
      (check_collision s.board (rotated s.current_piece) s.piece_x s.piece_y = true →
        check_collision s.board (rotated s.current_piece) (s.piece_x - 1) s.piece_y = false →
        rotate_piece s =
          { s with current_piece := rotated s.current_piece, piece_x := s.piece_x - 1 }) ∧
      (check_collision s.board (rotated s.current_piece) s.piece_x s.piece_y = true →
        check_collision s.board (rotated s.current_piece) (s.piece_x - 1) s.piece_y = true →
        check_collision s.board (rotated s.current_piece) (s.piece_x + 1) s.piece_y = false →
        rotate_piece s =
          { s with current_piece := rotated s.current_piece, piece_x := s.piece_x + 1 }) ∧
      (check_collision s.board (rotated s.current_piece) s.piece_x s.piece_y = true →
        check_collision s.board (rotated s.current_piece) (s.piece_x - 1) s.piece_y = true →
        check_collision s.board (rotated s.current_piece) (s.piece_x + 1) s.piece_y = true →
        rotate_piece s = s)) := by
  refine ⟨?_, ?_⟩
  · intro h; unfold rotate_piece; simp [h]
  · intro h
    refine ⟨?_, ?_, ?_, ?_⟩
    · intro h1; unfold rotate_piece; simp [h, h1]
    · intro h1 h2; unfold rotate_piece; simp [h, h1, h2]
    · intro h1 h2 h3; unfold rotate_piece; simp [h, h1, h2, h3]
    · intro h1 h2 h3; unfold rotate_piece; simp [h, h1, h2, h3]

theorem rotate_piece_frame (s : State) :
    (rotate_piece s).piece_y = s.piece_y ∧ (rotate_piece s).board = s.board := by
  unfold rotate_piece
  simp only []
  split_ifs <;> exact ⟨rfl, rfl⟩

theorem rotate_piece_safe (s : State) (h : rotate_piece s ≠ s) :
    check_collision (rotate_piece s).board (rotate_piece s).current_piece
      (rotate_piece s).piece_x (rotate_piece s).piece_y = false := by
  obtain ⟨hO, hN⟩ := rotate_piece_cases s
  by_cases h4 : s.current_piece.color_idx = 4
  · exact absurd (hO h4) h
  · obtain ⟨c0, c1, c2, c3⟩ := hN h4
    cases h1 : check_collision s.board (rotated s.current_piece) s.piece_x s.piece_y with
    | false => rw [c0 h1]; exact h1
    | true =>
      cases h2 : check_collision s.board (rotated s.current_piece) (s.piece_x - 1) s.piece_y with
      | false => rw [c1 h1 h2]; exact h2
      | true =>
        cases h3 : check_collision s.board (rotated s.current_piece) (s.piece_x + 1) s.piece_y with
        | false => rw [c2 h1 h2 h3]; exact h3
        | true => exact absurd (c3 h1 h2 h3) h

/-- C9. `rotate_piece` on an O piece (`color_idx == 4`) changes nothing.  On
any other piece the rotated cells are `(cx - (y - cy), cy + (x - cx))` about
`blocks[1] = (cx, cy)` (colour and kind unchanged), and the origins `piece_x`,
`piece_x - 1`, `piece_x + 1` are tried in that order: the rotated cells are
committed at the first origin where `check_collision` is false, and if all
three collide the state is unchanged.  `piece_y` and the board never change,
and whenever the state changes the resulting piece does not collide at its
new origin. -/
theorem rotate_piece_spec (s : State) :
    (s.current_piece.color_idx = 4 → rotate_piece s = s) ∧
    (∀ i : Fin 4, (rotated s.current_piece).blocks.get i =
        ⟨(s.current_piece.blocks.get 1).x
            - ((s.current_piece.blocks.get i).y - (s.current_piece.blocks.get 1).y),
         (s.current_piece.blocks.get 1).y
            + ((s.current_piece.blocks.get i).x - (s.current_piece.blocks.get 1).x)⟩) ∧
    ((rotated s.current_piece).color_idx = s.current_piece.color_idx ∧
     (rotated s.current_piece).color_code = s.current_piece.color_code ∧
     (rotated s.current_piece).type_idx = s.current_piece.type_idx) ∧
    (s.current_piece.color_idx ≠ 4 →
      (check_collision s.board (rotated s.current_piece) s.piece_x s.piece_y = false →
        rotate_piece s = { s with current_piece := rotated s.current_piece }) ∧
      (check_collision s.board (rotated s.current_piece) s.piece_x s.piece_y = true →
        check_collision s.board (rotated s.current_piece) (s.piece_x - 1) s.piece_y = false →
        rotate_piece s =
          { s with current_piece := rotated s.current_piece, piece_x := s.piece_x - 1 }) ∧
      (check_collision s.board (rotated s.current_piece) s.piece_x s.piece_y = true →
        check_collision s.board (rotated s.current_piece) (s.piece_x - 1) s.piece_y = true →
        check_collision s.board (rotated s.current_piece) (s.piece_x + 1) s.piece_y = false →
        rotate_piece s =
          { s with current_piece := rotated s.current_piece, piece_x := s.piece_x + 1 }) ∧
      (check_collision s.board (rotated s.current_piece) s.piece_x s.piece_y = true →
        check_collision s.board (rotated s.current_piece) (s.piece_x - 1) s.piece_y = true →
        check_collision s.board (rotated s.current_piece) (s.piece_x + 1) s.piece_y = true →
        rotate_piece s = s)) ∧
    (rotate_piece s).piece_y = s.piece_y ∧ (rotate_piece s).board = s.board ∧
    (rotate_piece s ≠ s →
      check_collision (rotate_piece s).board (rotate_piece s).current_piece
        (rotate_piece s).piece_x (rotate_piece s).piece_y = false) :=
  ⟨(rotate_piece_cases s).1, fun i => rotated_blocks s.current_piece i,
    rotated_fields s.current_piece, (rotate_piece_cases s).2,
    (rotate_piece_frame s).1, (rotate_piece_frame s).2, rotate_piece_safe s⟩

/-- Witness of C9: the upright I piece against the right wall collides at the
unchanged origin after rotation and is committed one column to the left. -/
theorem rotate_piece_spec_witness :
    WALL_STATE.current_piece.color_idx ≠ 4 ∧
    check_collision WALL_STATE.board (rotated WALL_STATE.current_piece) 8 5 = true ∧
    check_collision WALL_STATE.board (rotated WALL_STATE.current_piece) 7 5 = false ∧
    rotate_piece WALL_STATE =
      { WALL_STATE with current_piece := rotated WALL_STATE.current_piece, piece_x := 7 } :=
  ⟨by decide, by decide, by decide,
    ((rotate_piece_spec WALL_STATE).2.2.2.1 (by decide)).2.1 (by decide) (by decide)⟩

theorem rotate_step (s : State) (p : Tetromino) (hO : p.color_idx ≠ 4)
    (hc : check_collision s.board (rotated p) s.piece_x s.piece_y = false) :
    rotate_piece { s with current_piece := p } = { s with current_piece := rotated p } :=
  rotate_piece_free { s with current_piece := p } hO hc

theorem rotate_four_eq (s : State) (hO : s.current_piece.color_idx ≠ 4)
    (h1 : check_collision s.board (rotated s.current_piece) s.piece_x s.piece_y = false)
    (h2 : check_collision s.board (rotated (rotated s.current_piece)) s.piece_x s.piece_y = false)
    (h3 : check_collision s.board (rotated (rotated (rotated s.current_piece)))
            s.piece_x s.piece_y = false)
    (h4 : check_collision s.board (rotated (rotated (rotated (rotated s.current_piece))))
            s.piece_x s.piece_y = false) :
    rotate_piece (rotate_piece (rotate_piece (rotate_piece s))) = s := by
  have c1 : (rotated s.current_piece).color_idx ≠ 4 := by
    rw [(rotated_fields _).1]; exact hO
  have c2 : (rotated (rotated s.current_piece)).color_idx ≠ 4 := by
    rw [(rotated_fields _).1]; exact c1
  have c3 : (rotated (rotated (rotated s.current_piece))).color_idx ≠ 4 := by
    rw [(rotated_fields _).1]; exact c2
  rw [rotate_piece_free s hO h1, rotate_step s _ c1 h2, rotate_step s _ c2 h3,
    rotate_step s _ c3 h4, rotated_four]

/-- C10. For a non-O piece, if none of the four successive rotated
configurations collides at the unchanged origin (so no kick is applied), four
consecutive applications of `rotate_piece` give back the four block offsets in
the same order and leave `piece_x` and `piece_y` unchanged; indeed the whole
state is as before. -/
theorem rotate_four_times (s : State) (hO : s.current_piece.color_idx ≠ 4)
    (h1 : check_collision s.board (rotated s.current_piece) s.piece_x s.piece_y = false)
    (h2 : check_collision s.board (rotated (rotated s.current_piece)) s.piece_x s.piece_y = false)
    (h3 : check_collision s.board (rotated (rotated (rotated s.current_piece)))
            s.piece_x s.piece_y = false)
    (h4 : check_collision s.board (rotated (rotated (rotated (rotated s.current_piece))))
            s.piece_x s.piece_y = false) :
    (∀ i : Fin 4,
      (rotate_piece (rotate_piece (rotate_piece (rotate_piece s)))).current_piece.blocks.get i
        = s.current_piece.blocks.get i) ∧
    (rotate_piece (rotate_piece (rotate_piece (rotate_piece s)))).piece_x = s.piece_x ∧
    (rotate_piece (rotate_piece (rotate_piece (rotate_piece s)))).piece_y = s.piece_y ∧
    rotate_piece (rotate_piece (rotate_piece (rotate_piece s))) = s := by
  rw [rotate_four_eq s hO h1 h2 h3 h4]
  exact ⟨fun _ => rfl, rfl, rfl, rfl⟩

/-- Witness of C10: the T piece at `(3, 5)` on the empty board. -/
theorem rotate_four_times_witness :
    OPEN_STATE.current_piece.color_idx ≠ 4 ∧
    rotate_piece OPEN_STATE ≠ OPEN_STATE ∧
    rotate_piece (rotate_piece (rotate_piece (rotate_piece OPEN_STATE))) = OPEN_STATE :=
  ⟨by decide, by decide,
    (rotate_four_times OPEN_STATE (by decide) (by decide) (by decide) (by decide) (by decide)).2.2.2⟩

/-! ## Spawning (shared by C4 to C8) -/

theorem shuffle_bag_other (R : Nat → Nat) (s : State) :
    shuffle_bag R s = { s with bag := (shuffle_bag R s).bag, bag_head := (shuffle_bag R s).bag_head,
                               rand_calls := (shuffle_bag R s).rand_calls } := by
  unfold shuffle_bag
  simp only []

theorem bag_ready_other (R : Nat → Nat) (s : State) :
    bag_ready R s = { s with bag := (bag_ready R s).bag, bag_head := (bag_ready R s).bag_head,
                             rand_calls := (bag_ready R s).rand_calls } := by
  unfold bag_ready
  split_ifs
  · exact shuffle_bag_other R s
  · exact rfl

theorem shuffle_bag_congr (R : Nat → Nat) (s t : State) (h1 : s.bag = t.bag)
    (h3 : s.rand_calls = t.rand_calls) :
    (shuffle_bag R s).bag = (shuffle_bag R t).bag ∧
    (shuffle_bag R s).rand_calls = (shuffle_bag R t).rand_calls := by
  unfold shuffle_bag
  simp only []
  rw [h1, h3]
  exact ⟨rfl, rfl⟩

theorem bag_ready_congr (R : Nat → Nat) (s t : State) (h1 : s.bag = t.bag)
    (h2 : s.bag_head = t.bag_head) (h3 : s.rand_calls = t.rand_calls) :
    (bag_ready R s).bag = (bag_ready R t).bag ∧
    (bag_ready R s).bag_head = (bag_ready R t).bag_head ∧
    (bag_ready R s).rand_calls = (bag_ready R t).rand_calls := by
  obtain ⟨e1, e3⟩ := shuffle_bag_congr R s t h1 h3
  unfold bag_ready
  rw [h2]
  split_ifs
  · exact ⟨e1, rfl, e3⟩
  · exact ⟨h1, h2, h3⟩

theorem next_kind_congr (R : Nat → Nat) (s t : State) (h1 : s.bag = t.bag)
    (h2 : s.bag_head = t.bag_head) (h3 : s.rand_calls = t.rand_calls) :
    next_kind R s = next_kind R t := by
  obtain ⟨e1, e2, _⟩ := bag_ready_congr R s t h1 h2 h3
  unfold next_kind
  rw [e1, e2]

theorem bag_ready_ok (R : Nat → Nat) (s : State) (h : bag_ok s) :
    bag_ok (bag_ready R s) ∧ (bag_ready R s).bag_head < 7 := by
  obtain ⟨hlen, h0, hk⟩ := h
  unfold bag_ready
  split_ifs with h7
  · have hp := shuffle_bag_perm R s hlen
    refine ⟨⟨hp.length_eq, (by decide : (0 : Int) ≤ 0), ?_⟩, (by decide : (0 : Int) < 7)⟩
    intro k hk'
    have : k ∈ KINDS := hp.subset hk'
    simp [KINDS] at this
    omega
  · exact ⟨⟨hlen, h0, hk⟩, by omega⟩

theorem next_kind_range (R : Nat → Nat) (s : State) (h : bag_ok s) :
    (bag_ready R s).bag[(bag_ready R s).bag_head.toNat]? = some (next_kind R s) ∧
    0 ≤ next_kind R s ∧ next_kind R s < 7 := by
  obtain ⟨⟨hlen, h0, hk⟩, h7⟩ := bag_ready_ok R s h
  have hlt : (bag_ready R s).bag_head.toNat < (bag_ready R s).bag.length := by omega
  have e : next_kind R s = (bag_ready R s).bag[(bag_ready R s).bag_head.toNat] := by
    unfold next_kind
    exact List.getD_eq_getElem _ _ hlt
  rw [e]
  exact ⟨List.getElem?_eq_getElem hlt, hk _ (List.getElem_mem _)⟩

theorem get_from_bag_ok (R : Nat → Nat) (s : State) (h : bag_ok s) :
    get_from_bag R s =
      some (shape_of (next_kind R s),
            { bag_ready R s with bag_head := (bag_ready R s).bag_head + 1 }) := by
  obtain ⟨⟨_, h0, _⟩, _⟩ := bag_ready_ok R s h
  obtain ⟨hget, k0, k7⟩ := next_kind_range R s h
  have e : (if s.bag_head ≥ 7 then shuffle_bag R s else s) = bag_ready R s := rfl
  unfold get_from_bag
  simp only [e]
  rw [if_neg (not_lt.mpr h0), hget]
  simp only [if_neg (not_lt.mpr k0), shapes_lookup _ k0 k7]

theorem shape_of_mem (k : Int) (h0 : 0 ≤ k) (h7 : k < 7) : shape_of k ∈ SHAPES := by
  have h : k = 0 ∨ k = 1 ∨ k = 2 ∨ k = 3 ∨ k = 4 ∨ k = 5 ∨ k = 6 := by omega
  rcases h with h | h | h | h | h | h | h <;> subst h <;> decide

theorem spawn_origin : Int.tdiv BOARD_WIDTH 2 - 2 = 3 := by decide

theorem spawn_piece_ok (R : Nat → Nat) (s : State) (h : bag_ok s) :
    ∃ s', spawn_piece R s = some s' ∧ Spawned R s s' := by
  have hs2 : bag_ok { s with next_queue := ⟨s.next_queue.q1, s.next_queue.q2, s.next_queue.q2⟩ } := h
  have hk := next_kind_congr R
    { s with next_queue := ⟨s.next_queue.q1, s.next_queue.q2, s.next_queue.q2⟩ } s rfl rfl rfl
  obtain ⟨e1, e2, e3⟩ := bag_ready_congr R
    { s with next_queue := ⟨s.next_queue.q1, s.next_queue.q2, s.next_queue.q2⟩ } s rfl rfl rfl
  have hother := bag_ready_other R
    { s with next_queue := ⟨s.next_queue.q1, s.next_queue.q2, s.next_queue.q2⟩ }
  obtain ⟨hbok, hlt⟩ := bag_ready_ok R s h
  have hkr := (next_kind_range R s h).2
  unfold spawn_piece pop_next_piece
  simp only []
  rw [get_from_bag_ok R _ hs2, hk, hother, e1, e2, e3, spawn_origin]
  simp only []
  have hokfinal : ∀ (gs hs : Int), bag_ok
      { s with bag := (bag_ready R s).bag, bag_head := (bag_ready R s).bag_head + 1,
               rand_calls := (bag_ready R s).rand_calls,
               next_queue := ⟨s.next_queue.q1, s.next_queue.q2, shape_of (next_kind R s)⟩,
               current_piece := s.next_queue.q0, piece_x := 3, piece_y := 0, hold_locked := 0,
               game_state := gs, high_score := hs } := by
    intro gs hs
    exact ⟨hbok.1, by have := hbok.2.1; show 0 ≤ (bag_ready R s).bag_head + 1; omega, hbok.2.2⟩
  split_ifs with hc
  · refine ⟨_, rfl, ?_⟩
    unfold save_high_score
    split_ifs <;>
      exact { board := rfl, current := rfl, px := rfl, py := rfl, locked := rfl, hold := rfl,
              score := rfl, lines := rfl, level := rfl, q0 := rfl, q1 := rfl, q2 := rfl,
              kind := hkr, bag := rfl, head := rfl, calls := rfl,
              phase := by simp [hc], ok := hokfinal _ _ }
  · refine ⟨_, rfl, ?_⟩
    exact { board := rfl, current := rfl, px := rfl, py := rfl, locked := rfl, hold := rfl,
            score := rfl, lines := rfl, level := rfl, q0 := rfl, q1 := rfl, q2 := rfl,
            kind := hkr, bag := rfl, head := rfl, calls := rfl,
            phase := by simp [hc], ok := hokfinal _ _ }

/-! ## Hold (C6, C7) -/

theorem spawn_piece_unlocks (R : Nat → Nat) (s s' : State) (h : spawn_piece R s = some s') :
    s'.hold_locked = 0 := by
  unfold spawn_piece at h
  split at h
  · exact absurd h (by simp)
  · simp only [] at h
    split_ifs at h
    · rw [← Option.some.inj h]
      unfold save_high_score
      split_ifs <;> rfl
    · rw [← Option.some.inj h]

theorem hold_locked_noop (R : Nat → Nat) (s : State) (h : s.hold_locked ≠ 0) :
    hold_piece_action R s = some s := by
  unfold hold_piece_action
  rw [if_pos h]

theorem hold_sets_lock (R : Nat → Nat) (s s' : State) (hl : s.hold_locked = 0)
    (h : hold_piece_action R s = some s') : s'.hold_locked = 1 := by
  unfold hold_piece_action at h
  rw [if_neg (by simp [hl])] at h
  by_cases he : s.hold_idx = -1
  · rw [if_pos he] at h
    split at h
    · exact absurd h (by simp)
    · rw [← Option.some.inj h]
  · rw [if_neg he] at h
    simp only [] at h
    by_cases hn : s.hold_idx < 0
    · rw [if_pos hn] at h
      exact absurd h (by simp)
    · rw [if_neg hn] at h
      split at h
      · exact absurd h (by simp)
      · rw [← Option.some.inj h]

theorem hold_empty_ok (R : Nat → Nat) (s : State) (hl : s.hold_locked = 0) (he : s.hold_idx = -1)
    (hb : bag_ok s) :
    ∃ s1, spawn_piece R { s with hold_idx := s.current_piece.type_idx } = some s1 ∧
      Spawned R { s with hold_idx := s.current_piece.type_idx } s1 ∧
      hold_piece_action R s = some { s1 with hold_locked := 1 } := by
  obtain ⟨s1, h1, hs⟩ := spawn_piece_ok R { s with hold_idx := s.current_piece.type_idx } hb
  refine ⟨s1, h1, hs, ?_⟩
  unfold hold_piece_action
  rw [if_neg (by simp [hl]), if_pos he, h1]

theorem hold_swap_ok (R : Nat → Nat) (s : State) (hl : s.hold_locked = 0) (K : Int)
    (hK : s.hold_idx = K) (h0 : 0 ≤ K) (h7 : K < 7) :
    hold_piece_action R s =
      some { s with hold_idx := s.current_piece.type_idx, current_piece := shape_of K,
                    piece_x := 3, piece_y := 0, hold_locked := 1 } := by
  unfold hold_piece_action
  have hne : ¬ (s.hold_idx = -1) := by omega
  have hnn : ¬ (s.hold_idx < 0) := by omega
  rw [if_neg (by simp [hl]), if_neg hne]
  simp only [if_neg hnn]
  simp only [hK, shapes_lookup K h0 h7, spawn_origin]

/-! ## Locking and scoring (C5) -/

theorem put_ok (b : Board) (y x : Nat) (v : Int) (hb : board_ok b) : board_ok (b.put y x v) := by
  obtain ⟨hlen, hr⟩ := hb
  unfold Board.put
  refine ⟨by rw [List.length_set]; exact hlen, ?_⟩
  by_cases hy : y < b.length
  · apply rows_ok_set b y _ hr
    rw [List.length_set, List.getD_eq_getElem _ _ hy]
    exact hr _ (List.getElem_mem _)
  · rw [List.set_eq_of_length_le (by omega)]
    exact hr

theorem write_block_ok (p : Tetromino) (px py : Int) (b : Board) (i : Fin 4) (hb : board_ok b) :
    board_ok (write_block p px py b i) := by
  unfold write_block
  simp only []
  split_ifs
  · exact put_ok b _ _ _ hb
  · exact hb

theorem write_piece_ok (p : Tetromino) (px py : Int) (b : Board) (hb : board_ok b) :
    board_ok (write_piece p px py b) := by
  unfold write_piece
  simp only [List.foldl_cons, List.foldl_nil]
  exact write_block_ok _ _ _ _ _ (write_block_ok _ _ _ _ _
    (write_block_ok _ _ _ _ _ (write_block_ok _ _ _ _ _ hb)))

theorem score_lines_zero (s : State) : score_lines s 0 = some s := by
  unfold score_lines
  simp

theorem score_lines_pos (s : State) (n : Nat) (h1 : 1 ≤ n) (h4 : n ≤ 4) :
    ∃ hs, score_lines s (n : Int) =
      some { s with lines_cleared_total := wrap_int (s.lines_cleared_total + (n : Int)),
                    score := wrap_int (s.score + wrap_int (points.getD n 0 * s.level)),
                    level := 1 + Int.tdiv (wrap_int (s.lines_cleared_total + (n : Int))) 10,
                    high_score := hs } := by
  unfold score_lines
  have hpos : ((n : Int) > 0) := by omega
  rw [if_pos hpos, Int.toNat_ofNat]
  have hn : n = 1 ∨ n = 2 ∨ n = 3 ∨ n = 4 := by omega
  rcases hn with h | h | h | h <;> subst h <;> simp only [points] <;>
    simp only [List.getElem?_cons_succ, List.getElem?_cons_zero, List.getD_cons_succ,
      List.getD_cons_zero] <;> split_ifs <;> exact ⟨_, rfl⟩

theorem lock_piece_ok (R : Nat → Nat) (s : State) (hb : board_ok s.board) (hbag : bag_ok s)
    (n : Nat)
    (hn : (write_piece s.current_piece s.piece_x s.piece_y s.board).countP is_full_row = n)
    (h4 : n ≤ 4) :
    ∃ s1 s', score_lines
        { s with board := collapse (write_piece s.current_piece s.piece_x s.piece_y s.board) } (n : Int) = some s1 ∧
      bag_ok s1 ∧ spawn_piece R s1 = some s' ∧ Spawned R s1 s' ∧ lock_piece R s = some s' := by
  have hw := write_piece_ok s.current_piece s.piece_x s.piece_y s.board hb
  have hclear := clear_rows_of_fuel _ hw CLEAR_FUEL (Nat.le_refl _)
  rw [hn] at hclear
  have hcol : collapse (write_piece s.current_piece s.piece_x s.piece_y s.board) =
      List.replicate n EMPTY_ROW ++
        List.filter (fun r => !is_full_row r)
          (write_piece s.current_piece s.piece_x s.piece_y s.board) := by
    unfold collapse
    rw [hn]
  rw [← hcol] at hclear
  have hsc : ∃ s1, score_lines
        { s with board := collapse (write_piece s.current_piece s.piece_x s.piece_y s.board) } (n : Int) = some s1 ∧ bag_ok s1 := by
    by_cases h0 : n = 0
    · subst h0
      exact ⟨_, score_lines_zero _, hbag⟩
    · obtain ⟨hs, e⟩ := score_lines_pos
        { s with board := collapse (write_piece s.current_piece s.piece_x s.piece_y s.board) } n (by omega) h4
      exact ⟨_, e, hbag⟩
  obtain ⟨s1, e1, hok⟩ := hsc
  obtain ⟨s', e2, hsp⟩ := spawn_piece_ok R s1 hok
  refine ⟨s1, s', e1, hok, e2, hsp, ?_⟩
  unfold lock_piece
  simp only [hclear, e1, e2]

theorem lock_piece_unlocks (R : Nat → Nat) (s s' : State) (h : lock_piece R s = some s') :
    s'.hold_locked = 0 := by
  unfold lock_piece at h
  simp only [] at h
  split at h
  · exact absurd h (by simp)
  · split at h
    · exact absurd h (by simp)
    · exact spawn_piece_unlocks R _ _ h

theorem wrap_int_fits (x : Int) (h1 : INT_MIN ≤ x) (h2 : x ≤ INT_MAX) : wrap_int x = x := by
  unfold wrap_int
  unfold INT_MIN at h1
  unfold INT_MAX at h2
  omega

theorem wrap_int_range (x : Int) : INT_MIN ≤ wrap_int x ∧ wrap_int x ≤ INT_MAX := by
  unfold wrap_int INT_MIN INT_MAX
  omega

/-- C5 as amended.  Let `lock_piece` run from a state with a 20x10 board, a
well-formed bag and a non-negative line total `T`, and let `n <= 4` be the
number of full rows once the piece is written (the value the clearing loop
counts).  Then `lock_piece` returns.  If `n >= 1`, the stored line total and
score are `T + n` and `score + points[n] * L` reduced to the range of `int`,
with `points = {0, 100, 300, 500, 800}` and `L` the level before this clear;
and when no `int` operation overflows the new line total is `T + n`, the score
has grown by exactly `points[n] * L`, and the new level is
`1 + floor((T + n) / 10)`.  If `n = 0` the score, the line total and the level
are unchanged. -/
theorem lock_piece_scoring (R : Nat → Nat) (s : State) (hb : board_ok s.board) (hbag : bag_ok s)
    (hT : 0 ≤ s.lines_cleared_total) (n : Nat)
    (hn : (write_piece s.current_piece s.piece_x s.piece_y s.board).countP is_full_row = n)
    (h4 : n ≤ 4) :
    ∃ s', lock_piece R s = some s' ∧
      clear_rows CLEAR_FUEL (write_piece s.current_piece s.piece_x s.piece_y s.board)
        = some (collapse (write_piece s.current_piece s.piece_x s.piece_y s.board), (n : Int)) ∧
      (1 ≤ n →
        s'.lines_cleared_total = wrap_int (s.lines_cleared_total + (n : Int)) ∧
        s'.score = wrap_int (s.score + wrap_int (points.getD n 0 * s.level)) ∧
        s'.level = 1 + Int.tdiv s'.lines_cleared_total 10) ∧
      (1 ≤ n → no_overflow s n →
        s'.lines_cleared_total = s.lines_cleared_total + (n : Int) ∧
        s'.score = s.score + points.getD n 0 * s.level ∧
        s'.level = 1 + (s.lines_cleared_total + (n : Int)) / 10) ∧
      (n = 1 → no_overflow s 1 → s'.score = s.score + 100 * s.level) ∧
      (n = 2 → no_overflow s 2 → s'.score = s.score + 300 * s.level) ∧
      (n = 3 → no_overflow s 3 → s'.score = s.score + 500 * s.level) ∧
      (n = 4 → no_overflow s 4 → s'.score = s.score + 800 * s.level) ∧
      (n = 0 →
        s'.score = s.score ∧ s'.lines_cleared_total = s.lines_cleared_total ∧
        s'.level = s.level) := by
  obtain ⟨s1, s', e1, _, _, hsp, hlock⟩ := lock_piece_ok R s hb hbag n hn h4
  have hclear := clear_rows_of_fuel _
    (write_piece_ok s.current_piece s.piece_x s.piece_y s.board hb) CLEAR_FUEL (Nat.le_refl _)
  rw [hn] at hclear
  have hraw : 1 ≤ n →
      s'.lines_cleared_total = wrap_int (s.lines_cleared_total + (n : Int)) ∧
      s'.score = wrap_int (s.score + wrap_int (points.getD n 0 * s.level)) ∧
      s'.level = 1 + Int.tdiv s'.lines_cleared_total 10 := by
    intro h1
    obtain ⟨hs, e⟩ := score_lines_pos
      { s with board := collapse (write_piece s.current_piece s.piece_x s.piece_y s.board) }
      n h1 h4
    rw [e] at e1
    have e1' := Option.some.inj e1
    rw [hsp.lines, hsp.score, hsp.level, ← e1']
    exact ⟨rfl, rfl, rfl⟩
  have hpos : 1 ≤ n → no_overflow s n →
      s'.lines_cleared_total = s.lines_cleared_total + (n : Int) ∧
      s'.score = s.score + points.getD n 0 * s.level ∧
      s'.level = 1 + (s.lines_cleared_total + (n : Int)) / 10 := by
    intro h1 hfit
    obtain ⟨r1, r2, r3⟩ := hraw h1
    obtain ⟨f1, ⟨f2, f3⟩, f4, f5⟩ := hfit
    have w1 : wrap_int (s.lines_cleared_total + (n : Int)) = s.lines_cleared_total + (n : Int) :=
      wrap_int_fits _ (by unfold INT_MIN; omega) f1
    have w2 : wrap_int (points.getD n 0 * s.level) = points.getD n 0 * s.level :=
      wrap_int_fits _ f2 f3
    have w3 : wrap_int (s.score + points.getD n 0 * s.level)
        = s.score + points.getD n 0 * s.level := wrap_int_fits _ f4 f5
    rw [w1] at r1
    rw [w2, w3] at r2
    refine ⟨r1, r2, ?_⟩
    rw [r3, r1, Int.tdiv_eq_ediv (by omega) (by decide)]
  refine ⟨s', hlock, ?_, hraw, hpos, ?_, ?_, ?_, ?_, ?_⟩
  · rw [hclear]
    unfold collapse
    rw [hn]
  · intro h hf; subst h; exact (hpos (by decide) hf).2.1
  · intro h hf; subst h; exact (hpos (by decide) hf).2.1
  · intro h hf; subst h; exact (hpos (by decide) hf).2.1
  · intro h hf; subst h; exact (hpos (by decide) hf).2.1
  · intro h0
    subst h0
    have e0 := (score_lines_zero
      { s with board := collapse (write_piece s.current_piece s.piece_x s.piece_y s.board) }).symm.trans e1
    have e1' := Option.some.inj e0
    rw [hsp.lines, hsp.score, hsp.level, ← e1']
    exact ⟨rfl, rfl, rfl⟩

set_option maxRecDepth 100000 in
/-- Witness of C5 as amended: clearing 4 rows at level 3 adds exactly 2400
points; the line total goes from 25 to 29 and the level stays 3. -/
theorem lock_piece_scoring_witness :
    board_ok LOCK4_STATE.board ∧ bag_ok LOCK4_STATE ∧ LOCK4_STATE.level = 3 ∧
    (write_piece LOCK4_STATE.current_piece LOCK4_STATE.piece_x LOCK4_STATE.piece_y
      LOCK4_STATE.board).countP is_full_row = 4 ∧ no_overflow LOCK4_STATE 4 ∧
    ∃ s', lock_piece R0 LOCK4_STATE = some s' ∧ s'.score = LOCK4_STATE.score + 2400 ∧
      s'.lines_cleared_total = 29 ∧ s'.level = 3 := by
  obtain ⟨s', h1, _, _, hpos, _⟩ :=
    lock_piece_scoring R0 LOCK4_STATE (by decide) (by decide) (by decide) 4 (by decide)
      (by decide)
  obtain ⟨a, b, c⟩ := hpos (by decide) (by decide)
  exact ⟨by decide, by decide, by decide, by decide, by decide, s', h1, b.trans (by decide),
    a.trans (by decide), c.trans (by decide)⟩

set_option maxRecDepth 100000 in
/-- C5 fails when the score overflows.  `OVERFLOW_STATE` has a 20x10 board, a
well-formed bag, line total 14648, level 1465 and score 2146811200, and its
piece completes four rows.  `lock_piece` stores the score -2146984096, not
`2146811200 + 800 * 1465 = 2147983200`, which exceeds `INT_MAX`. -/
theorem lock_piece_score_overflow :
    board_ok OVERFLOW_STATE.board ∧ bag_ok OVERFLOW_STATE ∧
    0 ≤ OVERFLOW_STATE.lines_cleared_total ∧
    OVERFLOW_STATE.level = 1 + OVERFLOW_STATE.lines_cleared_total / 10 ∧
    (write_piece OVERFLOW_STATE.current_piece OVERFLOW_STATE.piece_x OVERFLOW_STATE.piece_y
      OVERFLOW_STATE.board).countP is_full_row = 4 ∧
    ∃ s', lock_piece R0 OVERFLOW_STATE = some s' ∧ s'.score = -2146984096 ∧
      s'.score ≠ OVERFLOW_STATE.score + 800 * OVERFLOW_STATE.level ∧
      s'.lines_cleared_total = 14652 ∧ s'.level = 1466 := by
  refine ⟨by decide, by decide, by decide, by decide, by decide, ?_⟩
  obtain ⟨s1, s', _, _, _, _, h⟩ :=
    lock_piece_ok R0 OVERFLOW_STATE (by decide) (by decide) 4 (by decide) (by decide)
  have e : (lock_piece R0 OVERFLOW_STATE).map
      (fun t => (t.score, t.lines_cleared_total, t.level)) =
      some (-2146984096, 14652, 1466) := by decide
  rw [h] at e
  have e' := Option.some.inj e
  have hs : s'.score = -2146984096 := congrArg Prod.fst e'
  refine ⟨s', h, hs, ?_, congrArg (fun p => p.2.1) e', congrArg (fun p => p.2.2) e'⟩
  rw [hs]
  decide

/-! ## Hold: claims C6 and C7 -/

theorem apply_move_keeps_lock (R : Nat → Nat) (m : Move) (s s' : State) (hl : s.hold_locked ≠ 0)
    (h : apply_move R m s = some s') :
    s'.hold_locked ≠ 0 ∧ (m = Move.hold → s' = s) := by
  cases m with
  | left =>
    simp only [apply_move] at h
    rw [← Option.some.inj h]
    refine ⟨?_, fun h => by cases h⟩
    split_ifs <;> exact hl
  | right =>
    simp only [apply_move] at h
    rw [← Option.some.inj h]
    refine ⟨?_, fun h => by cases h⟩
    split_ifs <;> exact hl
  | down =>
    simp only [apply_move] at h
    rw [← Option.some.inj h]
    refine ⟨?_, fun h => by cases h⟩
    split_ifs <;> exact hl
  | rotate =>
    simp only [apply_move] at h
    rw [← Option.some.inj h]
    refine ⟨?_, fun h => by cases h⟩
    unfold rotate_piece
    simp only []
    split_ifs <;> exact hl
  | hold =>
    simp only [apply_move] at h
    rw [hold_locked_noop R s hl] at h
    rw [← Option.some.inj h]
    exact ⟨hl, fun _ => rfl⟩

theorem hold_changes_locked (R : Nat → Nat) : ∀ (ms : List Move) (s : State),
    s.hold_locked ≠ 0 → hold_changes R ms s = 0 := by
  intro ms
  induction ms with
  | nil => intro s _; rfl
  | cons m ms ih =>
    intro s hl
    unfold hold_changes
    cases h : apply_move R m s with
    | none => rfl
    | some s' =>
      obtain ⟨hl', hsame⟩ := apply_move_keeps_lock R m s s' hl h
      simp only [ih s' hl']
      have : ¬ (m = Move.hold ∧ s' ≠ s) := fun ⟨hm, hne⟩ => hne (hsame hm)
      simp [this]

theorem hold_changes_le_one (R : Nat → Nat) : ∀ (ms : List Move) (s : State),
    hold_changes R ms s ≤ 1 := by
  intro ms
  induction ms with
  | nil => intro s; exact Nat.zero_le _
  | cons m ms ih =>
    intro s
    unfold hold_changes
    cases h : apply_move R m s with
    | none => exact Nat.zero_le _
    | some s' =>
      simp only []
      by_cases hm : m = Move.hold
      · subst hm
        by_cases hl : s.hold_locked = 0
        · have h1 : s'.hold_locked = 1 := hold_sets_lock R s s' hl h
          rw [hold_changes_locked R ms s' (by rw [h1]; decide)]
          split_ifs <;> omega
        · obtain ⟨_, hsame⟩ := apply_move_keeps_lock R Move.hold s s' hl h
          have : ¬ (Move.hold = Move.hold ∧ s' ≠ s) := fun ⟨_, hne⟩ => hne (hsame rfl)
          rw [if_neg this]
          have := ih s'
          omega
      · have : ¬ (m = Move.hold ∧ s' ≠ s) := fun ⟨h1, _⟩ => hm h1
        rw [if_neg this]
        have := ih s'
        omega

theorem reset_unlocks (R : Nat → Nat) (s s' : State) (h : reset_game R s = some s') :
    s'.hold_locked = 0 := by
  unfold reset_game at h
  simp only [] at h
  split at h
  · exact absurd h (by simp)
  · split at h
    · exact absurd h (by simp)
    · split at h
      · exact absurd h (by simp)
      · exact spawn_piece_unlocks R _ _ h

theorem play_keeps_lock (R : Nat → Nat) (i : Input) (s s' : State) (hl : s.hold_locked ≠ 0)
    (h : play R i s = some s') (hk : lock_event i s = false) (hr : reset_event i s = false) :
    s'.hold_locked ≠ 0 ∧ (i = Input.key Move.hold → s' = s) := by
  unfold play at h
  by_cases hg : s.game_state = 0
  · rw [if_pos hg] at h
    cases i with
    | key m =>
      obtain ⟨a, b⟩ := apply_move_keeps_lock R m s s' hl h
      exact ⟨a, fun e => b (Input.key.inj e)⟩
    | hard_drop => simp [lock_event, hg] at hk
    | restart =>
      rw [← Option.some.inj h]
      exact ⟨hl, fun e => by cases e⟩
    | tick =>
      have hc : check_collision s.board s.current_piece s.piece_x (s.piece_y + 1) = false := by
        simpa [lock_event, hg] using hk
      simp only [tick, hc] at h
      rw [← Option.some.inj h]
      exact ⟨hl, fun e => by cases e⟩
  · rw [if_neg hg] at h
    cases i with
    | key m =>
      rw [← Option.some.inj h]
      exact ⟨hl, fun _ => rfl⟩
    | hard_drop =>
      rw [← Option.some.inj h]
      exact ⟨hl, fun e => by cases e⟩
    | restart => simp [reset_event, hg] at hr
    | tick =>
      rw [← Option.some.inj h]
      exact ⟨hl, fun e => by cases e⟩

theorem tally_step (R : Nat → Nat) (i : Input) (rest : List Input) (s s' : State)
    (h : play R i s = some s') :
    tally R (i :: rest) s =
      ⟨(tally R rest s').locks + (if lock_event i s then 1 else 0),
       (tally R rest s').resets + (if reset_event i s then 1 else 0),
       (tally R rest s').holds + (if i = Input.key Move.hold ∧ s' ≠ s then 1 else 0)⟩ := by
  rw [tally, h]

theorem tally_locked (R : Nat → Nat) : ∀ (inputs : List Input) (s : State),
    s.hold_locked ≠ 0 → (tally R inputs s).locks = 0 → (tally R inputs s).resets = 0 →
    (tally R inputs s).holds = 0 := by
  intro inputs
  induction inputs with
  | nil => intro s _ _ _; rfl
  | cons i rest ih =>
    intro s hl h1 h2
    cases h : play R i s with
    | none => rw [tally, h]
    | some s' =>
      rw [tally_step R i rest s s' h] at h1 h2 ⊢
      simp only [] at h1 h2 ⊢
      have hk : lock_event i s = false := by
        cases hv : lock_event i s
        · rfl
        · rw [hv] at h1; simp at h1
      have hr : reset_event i s = false := by
        cases hv : reset_event i s
        · rfl
        · rw [hv] at h2; simp at h2
      rw [hk] at h1
      rw [hr] at h2
      obtain ⟨hl', hsame⟩ := play_keeps_lock R i s s' hl h hk hr
      have hno : ¬ (i = Input.key Move.hold ∧ s' ≠ s) := fun ⟨a, b⟩ => b (hsame a)
      rw [if_neg hno, ih s' hl' (by simpa using h1) (by simpa using h2)]

theorem tally_le_one (R : Nat → Nat) : ∀ (inputs : List Input) (s : State),
    (tally R inputs s).locks = 0 → (tally R inputs s).resets = 0 →
    (tally R inputs s).holds ≤ 1 := by
  intro inputs
  induction inputs with
  | nil => intro s _ _; exact Nat.zero_le _
  | cons i rest ih =>
    intro s h1 h2
    cases h : play R i s with
    | none => rw [tally, h]; exact Nat.zero_le _
    | some s' =>
      rw [tally_step R i rest s s' h] at h1 h2 ⊢
      simp only [] at h1 h2 ⊢
      have hk : lock_event i s = false := by
        cases hv : lock_event i s
        · rfl
        · rw [hv] at h1; simp at h1
      have hr : reset_event i s = false := by
        cases hv : reset_event i s
        · rfl
        · rw [hv] at h2; simp at h2
      rw [hk] at h1
      rw [hr] at h2
      have t1 : (tally R rest s').locks = 0 := by simpa using h1
      have t2 : (tally R rest s').resets = 0 := by simpa using h2
      by_cases hc : i = Input.key Move.hold ∧ s' ≠ s
      · rw [if_pos hc]
        obtain ⟨hi, hne⟩ := hc
        subst hi
        have hg : s.game_state = 0 := by
          by_contra hg
          unfold play at h
          rw [if_neg hg] at h
          exact hne (Option.some.inj h).symm
        have hh : hold_piece_action R s = some s' := by
          unfold play at h
          rw [if_pos hg] at h
          exact h
        have hl : s.hold_locked = 0 := by
          by_contra hl
          rw [hold_locked_noop R s hl] at hh
          exact hne (Option.some.inj hh).symm
        have hl' : s'.hold_locked = 1 := hold_sets_lock R s s' hl hh
        rw [tally_locked R rest s' (by rw [hl']; decide) t1 t2]
      · rw [if_neg hc]
        have := ih s' t1 t2
        omega

/-- C6 as amended.  Hold is limited to one per piece life.  With `hold_locked`
set, `hold_piece_action` returns the whole state unchanged.  With the flag
clear (and the bag and the hold slot well-formed) it returns, and every run
that returns ends with the flag set to 1.  `lock_piece` returns on a 20x10
board with a well-formed bag and at most four full rows, and every run that
returns ends with the flag clear; `reset_game` ends with the flag clear too.
Hence in any run of inputs (keys, hard drops, restarts, ticks) from any state
that contains no call of `lock_piece` and no call of `reset_game`, at most one
hold command changes the state; in particular this holds for any run of moves,
soft drops, rotations and holds. -/
theorem hold_once_per_piece (R : Nat → Nat) (s : State) :
    (s.hold_locked ≠ 0 → hold_piece_action R s = some s) ∧
    (s.hold_locked = 0 → bag_ok s → hold_ok s →
      ∃ s', hold_piece_action R s = some s' ∧ s'.hold_locked = 1) ∧
    (∀ s', s.hold_locked = 0 → hold_piece_action R s = some s' → s'.hold_locked = 1) ∧
    (board_ok s.board → bag_ok s →
      (write_piece s.current_piece s.piece_x s.piece_y s.board).countP is_full_row ≤ 4 →
      ∃ s', lock_piece R s = some s' ∧ s'.hold_locked = 0) ∧
    (∀ s', lock_piece R s = some s' → s'.hold_locked = 0) ∧
    (∀ ms : List Move, hold_changes R ms s ≤ 1) ∧
    (∀ s', reset_game R s = some s' → s'.hold_locked = 0) ∧
    (∀ inputs : List Input, (tally R inputs s).locks = 0 → (tally R inputs s).resets = 0 →
      (tally R inputs s).holds ≤ 1) := by
  refine ⟨hold_locked_noop R s, ?_, fun s' hl h => hold_sets_lock R s s' hl h, ?_,
    fun s' h => lock_piece_unlocks R s s' h, fun ms => hold_changes_le_one R ms s,
    fun s' h => reset_unlocks R s s' h, fun inputs => tally_le_one R inputs s⟩
  · intro hl hb hh
    rcases hh with he | ⟨h0, h7⟩
    · obtain ⟨s1, _, _, e⟩ := hold_empty_ok R s hl he hb
      exact ⟨_, e, rfl⟩
    · exact ⟨_, hold_swap_ok R s hl s.hold_idx rfl h0 h7, rfl⟩
  · intro hb hbag h4
    obtain ⟨_, s', _, _, _, hsp, hlock⟩ := lock_piece_ok R s hb hbag _ rfl h4
    exact ⟨s', hlock, hsp.locked⟩

set_option maxRecDepth 1000000 in
/-- Witness of C6 as amended: from `PLAY_STATE` the first hold changes the
state and sets the flag, a second hold right after it changes nothing, a lock
clears the flag again, and in a run of keys and a free tick without a lock or
a restart exactly one hold changes the state. -/
theorem hold_once_per_piece_witness :
    PLAY_STATE.hold_locked = 0 ∧ bag_ok PLAY_STATE ∧ hold_ok PLAY_STATE ∧
    board_ok PLAY_STATE.board ∧
    (∃ s', hold_piece_action R0 PLAY_STATE = some s' ∧ s'.hold_locked = 1 ∧
      hold_piece_action R0 s' = some s') ∧
    (∃ s', lock_piece R0 PLAY_STATE = some s' ∧ s'.hold_locked = 0) ∧
    hold_changes R0 [Move.hold, Move.left, Move.hold, Move.rotate, Move.hold] PLAY_STATE ≤ 1 ∧
    tally R0 [Input.key Move.hold, Input.tick, Input.key Move.hold, Input.key Move.rotate,
      Input.key Move.hold] PLAY_STATE = ⟨0, 0, 1⟩ ∧
    (tally R0 [Input.key Move.hold, Input.tick, Input.key Move.hold, Input.key Move.rotate,
      Input.key Move.hold] PLAY_STATE).holds ≤ 1 := by
  obtain ⟨s', h1, h2⟩ := (hold_once_per_piece R0 PLAY_STATE).2.1 (by decide) (by decide) (by decide)
  exact ⟨by decide, by decide, by decide, by decide,
    ⟨s', h1, h2, (hold_once_per_piece R0 s').1 (by rw [h2]; decide)⟩,
    (hold_once_per_piece R0 PLAY_STATE).2.2.2.1 (by decide) (by decide) (by decide),
    (hold_once_per_piece R0 PLAY_STATE).2.2.2.2.2.1 _, by decide,
    (hold_once_per_piece R0 PLAY_STATE).2.2.2.2.2.2.2 _ (by decide) (by decide)⟩

/-- C7. Let `hold_locked` be clear and the active piece have kind `c`
(`type_idx`), in any orientation.  If the slot is empty (and the bag is
well-formed), `hold_piece_action` stores `c` and the new active piece is the
previous front of the queue exactly as queued (a `SHAPES` entry when the queue
holds `SHAPES` entries) at `(3, 0)`; the queue moves forward by one and its
back is the piece `get_from_bag` draws from the bag of `s`, whose bag, cursor
and `rand()` count are the new ones.  If the slot holds kind `K` in `0..6`,
the new active piece is `SHAPES[K]` at `(3, 0)`, the slot becomes `c`, and the
queue and the bag are unchanged.  In both cases the board, score, lines and
level are unchanged and `hold_locked` ends as 1. -/
theorem hold_piece_spec (R : Nat → Nat) (s : State) (hl : s.hold_locked = 0) :
    (s.hold_idx = -1 → bag_ok s →
      ∃ s', hold_piece_action R s = some s' ∧
        s'.hold_idx = s.current_piece.type_idx ∧
        s'.current_piece = s.next_queue.q0 ∧
        (s.next_queue.q0 ∈ SHAPES → s'.current_piece ∈ SHAPES) ∧
        s'.piece_x = 3 ∧ s'.piece_y = 0 ∧
        s'.next_queue.q0 = s.next_queue.q1 ∧ s'.next_queue.q1 = s.next_queue.q2 ∧
        (∃ s1, get_from_bag R s = some (s'.next_queue.q2, s1) ∧ s'.bag = s1.bag ∧
          s'.bag_head = s1.bag_head ∧ s'.rand_calls = s1.rand_calls) ∧
        s'.board = s.board ∧ s'.score = s.score ∧
        s'.lines_cleared_total = s.lines_cleared_total ∧ s'.level = s.level ∧
        s'.hold_locked = 1) ∧
    (∀ K : Int, s.hold_idx = K → 0 ≤ K → K < 7 →
      ∃ s', hold_piece_action R s = some s' ∧
        SHAPES[K.toNat]? = some s'.current_piece ∧
        s'.piece_x = 3 ∧ s'.piece_y = 0 ∧
        s'.hold_idx = s.current_piece.type_idx ∧
        s'.next_queue = s.next_queue ∧ s'.bag = s.bag ∧ s'.bag_head = s.bag_head ∧
        s'.rand_calls = s.rand_calls ∧
        s'.board = s.board ∧ s'.score = s.score ∧
        s'.lines_cleared_total = s.lines_cleared_total ∧ s'.level = s.level ∧
        s'.hold_locked = 1) := by
  refine ⟨?_, ?_⟩
  · intro he hb
    obtain ⟨s1, _, hsp, e⟩ := hold_empty_ok R s hl he hb
    have hk := next_kind_congr R { s with hold_idx := s.current_piece.type_idx } s rfl rfl rfl
    obtain ⟨e1, e2, e3⟩ :=
      bag_ready_congr R { s with hold_idx := s.current_piece.type_idx } s rfl rfl rfl
    refine ⟨_, e, hsp.hold, hsp.current, ?_, hsp.px, hsp.py, hsp.q0, hsp.q1, ?_, hsp.board,
      hsp.score, hsp.lines, hsp.level, rfl⟩
    · intro hq
      show s1.current_piece ∈ SHAPES
      rw [hsp.current]
      exact hq
    · refine ⟨{ bag_ready R s with bag_head := (bag_ready R s).bag_head + 1 }, ?_, ?_, ?_, ?_⟩
      · show get_from_bag R s = some (s1.next_queue.q2, _)
        rw [hsp.q2, hk]
        exact get_from_bag_ok R s hb
      · show s1.bag = (bag_ready R s).bag
        rw [hsp.bag, e1]
      · show s1.bag_head = (bag_ready R s).bag_head + 1
        rw [hsp.head, e2]
      · show s1.rand_calls = (bag_ready R s).rand_calls
        rw [hsp.calls, e3]
  · intro K hK h0 h7
    exact ⟨_, hold_swap_ok R s hl K hK h0 h7, shapes_lookup K h0 h7, rfl, rfl, rfl, rfl, rfl, rfl,
      rfl, rfl, rfl, rfl, rfl, rfl⟩

set_option maxRecDepth 100000 in
/-- Witness of C7: from `PLAY_STATE` (empty slot, O active, I at the front of
the queue) hold stores kind 3 and activates the I piece; from `HELD_STATE`
(slot holds I) hold activates `SHAPES[0]` and stores kind 3. -/
theorem hold_piece_spec_witness :
    PLAY_STATE.hold_locked = 0 ∧ bag_ok PLAY_STATE ∧
    (∃ s', hold_piece_action R0 PLAY_STATE = some s' ∧ s'.hold_idx = 3 ∧
      s'.current_piece = shape_of 0 ∧ s'.next_queue.q0 = shape_of 6 ∧ s'.hold_locked = 1) ∧
    (∃ s', hold_piece_action R0 HELD_STATE = some s' ∧ s'.hold_idx = 3 ∧
      SHAPES[0]? = some s'.current_piece ∧ s'.next_queue = HELD_STATE.next_queue) := by
  obtain ⟨s', h, a1, a2, _, _, _, a3, _, _, _, _, _, _, a4⟩ :=
    (hold_piece_spec R0 PLAY_STATE (by decide)).1 (by decide) (by decide)
  obtain ⟨t', g, b1, _, _, b2, b3, _⟩ :=
    (hold_piece_spec R0 HELD_STATE (by decide)).2 0 (by decide) (by decide) (by decide)
  exact ⟨by decide, by decide, ⟨s', h, a1.trans (by decide), a2.trans (by decide),
    a3.trans (by decide), a4⟩, ⟨t', g, b2.trans (by decide), b1, b3⟩⟩

/-! ## Reset (C8) -/

theorem zero_rows_eq (ys : List Nat) : ∀ (b : Board), (∀ y ∈ ys, y < b.length) → rows_ok b →
    ys.foldl (fun acc y =>
        (List.range BOARD_WIDTH.toNat).foldl (fun acc2 x => acc2.put y x 0) acc) b
      = ys.foldl (fun acc y => acc.set y EMPTY_ROW) b := by
  induction ys with
  | nil => intro b _ _; rfl
  | cons y ys ih =>
    intro b hy hr
    have hyl : y < b.length := hy y (List.mem_cons_self _ _)
    have hrow : (b.getD y []).length = 10 := by
      rw [List.getD_eq_getElem _ _ hyl]; exact hr _ (List.getElem_mem _)
    have e : (List.range BOARD_WIDTH.toNat).foldl (fun acc2 x => acc2.put y x 0) b
        = b.set y EMPTY_ROW := by
      rw [foldl_put_const (fun _ => 0) y _ b hyl, foldl_set_const _ _ hrow]
      rfl
    simp only [List.foldl_cons]
    rw [e]
    apply ih
    · intro y' hy'
      rw [List.length_set]
      exact hy y' (List.mem_cons_of_mem _ hy')
    · exact rows_ok_set b y _ hr rfl

theorem foldl_set_range {α : Type} (e : α) : ∀ (n : Nat) (b : List α), n ≤ b.length →
    (List.range n).foldl (fun acc y => acc.set y e) b = List.replicate n e ++ b.drop n := by
  intro n
  induction n with
  | zero => intro b _; simp
  | succ n ih =>
    intro b hn
    have hlt : n < b.length := by omega
    rw [List.range_succ, List.foldl_append, ih b (by omega)]
    simp only [List.foldl_cons, List.foldl_nil]
    rw [List.set_append_right _ _ (by simp), List.length_replicate, Nat.sub_self,
      List.drop_eq_getElem_cons hlt, List.set_cons_zero, List.replicate_succ', List.append_assoc]
    rfl

theorem zero_board_eq (b : Board) (hb : board_ok b) : zero_board b = EMPTY_BOARD := by
  obtain ⟨hlen, hr⟩ := hb
  have h20 : BOARD_HEIGHT.toNat = 20 := rfl
  unfold zero_board
  rw [zero_rows_eq _ b (by intro y hy; rw [List.mem_range] at hy; omega) hr,
    foldl_set_range EMPTY_ROW _ b (by omega), List.drop_of_length_le (by omega),
    List.append_nil]
  rfl

theorem draw_ok (R : Nat → Nat) (s : State) (h : bag_ok s) :
    ∃ k s1, get_from_bag R s = some (shape_of k, s1) ∧ (0 ≤ k ∧ k < 7) ∧ bag_ok s1 ∧
      s1.board = s.board ∧ s1.score = s.score ∧
      s1.lines_cleared_total = s.lines_cleared_total ∧ s1.level = s.level ∧
      s1.game_state = s.game_state ∧ s1.hold_idx = s.hold_idx ∧
      s1.next_queue = s.next_queue := by
  obtain ⟨⟨h1, h2, h3⟩, _⟩ := bag_ready_ok R s h
  have ho := bag_ready_other R s
  refine ⟨next_kind R s, _, get_from_bag_ok R s h, (next_kind_range R s h).2,
    ⟨h1, by show 0 ≤ (bag_ready R s).bag_head + 1; omega, h3⟩, ?_, ?_, ?_, ?_, ?_, ?_, ?_⟩
  · show (bag_ready R s).board = s.board
    rw [ho]
  · show (bag_ready R s).score = s.score
    rw [ho]
  · show (bag_ready R s).lines_cleared_total = s.lines_cleared_total
    rw [ho]
  · show (bag_ready R s).level = s.level
    rw [ho]
  · show (bag_ready R s).game_state = s.game_state
    rw [ho]
  · show (bag_ready R s).hold_idx = s.hold_idx
    rw [ho]
  · show (bag_ready R s).next_queue = s.next_queue
    rw [ho]

theorem spawn_free (k : Int) (h0 : 0 ≤ k) (h7 : k < 7) :
    check_collision EMPTY_BOARD (shape_of k) 3 0 = false := by
  have h : k = 0 ∨ k = 1 ∨ k = 2 ∨ k = 3 ∨ k = 4 ∨ k = 5 ∨ k = 6 := by omega
  rcases h with h | h | h | h | h | h | h <;> subst h <;> decide

theorem reset_game_ok (R : Nat → Nat) (s : State) (hb : board_ok s.board)
    (hlen : s.bag.length = 7) :
    ∃ s', reset_game R s = some s' ∧ s'.board = EMPTY_BOARD ∧ s'.score = 0 ∧
      s'.lines_cleared_total = 0 ∧ s'.level = 1 ∧ s'.hold_idx = -1 ∧ s'.hold_locked = 0 ∧
      s'.piece_x = 3 ∧ s'.piece_y = 0 ∧ s'.game_state = 0 ∧ s'.current_piece ∈ SHAPES ∧
      check_collision s'.board s'.current_piece s'.piece_x s'.piece_y = false ∧ bag_ok s' := by
  -- the state after the assignments and `shuffle_bag`
  have hs3 : bag_ok (shuffle_bag R
      { s with board := EMPTY_BOARD, score := 0, lines_cleared_total := 0, level := 1,
               game_state := 0, hold_idx := -1, hold_locked := 0, bag_head := 7 }) := by
    have hp := shuffle_bag_perm R
      { s with board := EMPTY_BOARD, score := 0, lines_cleared_total := 0, level := 1,
               game_state := 0, hold_idx := -1, hold_locked := 0, bag_head := 7 } hlen
    refine ⟨hp.length_eq, (by decide : (0 : Int) ≤ 0), ?_⟩
    intro k hk
    have : k ∈ KINDS := hp.subset hk
    simp [KINDS] at this
    omega
  generalize hS3 : shuffle_bag R
      { s with board := EMPTY_BOARD, score := 0, lines_cleared_total := 0, level := 1,
               game_state := 0, hold_idx := -1, hold_locked := 0, bag_head := 7 } = s3 at hs3
  have f3 : s3.board = EMPTY_BOARD ∧ s3.score = 0 ∧ s3.lines_cleared_total = 0 ∧ s3.level = 1 ∧
      s3.game_state = 0 ∧ s3.hold_idx = -1 := by
    rw [← hS3]; exact ⟨rfl, rfl, rfl, rfl, rfl, rfl⟩
  obtain ⟨k0, s4, g0, hk0, ok4, a1, a2, a3, a4, a5, a6, _⟩ := draw_ok R s3 hs3
  obtain ⟨k1, s5, g1, _, ok5, b1, b2, b3, b4, b5, b6, b7⟩ :=
    draw_ok R { s4 with next_queue := { s4.next_queue with q0 := shape_of k0 } } ok4
  obtain ⟨k2, s6, g2, _, ok6, c1, c2, c3, c4, c5, c6, c7⟩ :=
    draw_ok R { s5 with next_queue := { s5.next_queue with q1 := shape_of k1 } } ok5
  obtain ⟨s', hsp', hsp⟩ :=
    spawn_piece_ok R { s6 with next_queue := { s6.next_queue with q2 := shape_of k2 } } ok6
  obtain ⟨f1, f2, f3, f4, f5, f6⟩ := f3
  have hq0 : s6.next_queue.q0 = shape_of k0 := by rw [c7, b7]
  have hboard : s'.board = EMPTY_BOARD := by rw [hsp.board]; exact c1.trans (b1.trans (a1.trans f1))
  have hcur : s'.current_piece = shape_of k0 := hsp.current.trans hq0
  have hfree : check_collision EMPTY_BOARD (shape_of k0) 3 0 = false :=
    spawn_free _ hk0.1 hk0.2
  refine ⟨s', ?_, hboard, ?_, ?_, ?_, ?_, hsp.locked, hsp.px, hsp.py, ?_, ?_, ?_, hsp.ok⟩
  · unfold reset_game
    simp only [zero_board_eq s.board hb]
    rw [hS3, g0]
    simp only []
    rw [g1]
    simp only []
    rw [g2]
    exact hsp'
  · rw [hsp.score]; exact c2.trans (b2.trans (a2.trans f2))
  · rw [hsp.lines]; exact c3.trans (b3.trans (a3.trans f3))
  · rw [hsp.level]; exact c4.trans (b4.trans (a4.trans f4))
  · rw [hsp.hold]; exact c6.trans (b6.trans (a6.trans f6))
  · rw [hsp.phase]
    show (if check_collision s6.board s6.next_queue.q0 3 0 = true then (1 : Int)
      else s6.game_state) = 0
    rw [c1.trans (b1.trans (a1.trans f1)), hq0, hfree]
    simpa using c5.trans (b5.trans (a5.trans f5))
  · rw [hcur]
    exact shape_of_mem _ hk0.1 hk0.2
  · rw [hboard, hcur, hsp.px, hsp.py]
    exact hfree

theorem empty_board_get (y x : Nat) : Board.get EMPTY_BOARD y x = 0 := by
  unfold Board.get EMPTY_BOARD EMPTY_ROW
  simp only [List.getD_eq_getElem?_getD, List.getElem?_replicate]
  split_ifs
  · simp only [Option.getD_some, List.getElem?_replicate]
    split_ifs <;> rfl
  · rfl

/-- C8. From every prior state (any contents of the 20x10 board, any counters,
hold slot, flag and phase; the bag being `int bag[7]`) and for every sequence
of `rand()` values, `reset_game` returns a state whose board cells are all 0,
with `score = 0`, `lines_cleared_total = 0`, `level = 1`, `hold_idx = -1`,
`hold_locked = 0`, an active piece taken from `SHAPES` at the spawn origin
`(3, 0)` that does not collide, and phase 0 (Playing). -/
theorem reset_game_spec (R : Nat → Nat) (s : State) (hb : board_ok s.board)
    (hlen : s.bag.length = 7) :
    ∃ s', reset_game R s = some s' ∧
      s'.board = List.replicate 20 (List.replicate 10 0) ∧
      (∀ y x : Nat, s'.board.get y x = 0) ∧
      s'.score = 0 ∧ s'.lines_cleared_total = 0 ∧ s'.level = 1 ∧
      s'.hold_idx = -1 ∧ s'.hold_locked = 0 ∧
      s'.current_piece ∈ SHAPES ∧ s'.piece_x = 3 ∧ s'.piece_y = 0 ∧
      check_collision s'.board s'.current_piece s'.piece_x s'.piece_y = false ∧
      s'.game_state = 0 := by
  obtain ⟨s', h, h1, h2, h3, h4, h5, h6, h7, h8, h9, h10, h11, _⟩ := reset_game_ok R s hb hlen
  refine ⟨s', h, h1, ?_, h2, h3, h4, h5, h6, h10, h7, h8, h11, h9⟩
  intro y x
  rw [h1]
  exact empty_board_get y x

/-- Witness of C8: resetting a finished game with four full rows on the board,
a taken and locked hold slot and phase 1 gives back phase 0 and score 0. -/
theorem reset_game_spec_witness :
    board_ok USED_STATE.board ∧ USED_STATE.bag.length = 7 ∧ USED_STATE.game_state = 1 ∧
    ∃ s', reset_game R0 USED_STATE = some s' ∧ s'.game_state = 0 ∧ s'.score = 0 ∧
      s'.hold_idx = -1 ∧ s'.board = List.replicate 20 (List.replicate 10 0) := by
  obtain ⟨s', h, h1, _, h2, _, _, h3, _, _, _, _, _, h4⟩ :=
    reset_game_spec R0 USED_STATE (by decide) (by decide)
  exact ⟨by decide, by decide, by decide, s', h, h4, h2, h3, h1⟩

/-! ## Hard drop -/

theorem descend_returns : ∀ (fuel : Nat) (s : State),
    (BOARD_HEIGHT - (s.piece_y + (s.current_piece.blocks.get 0).y)).toNat < fuel →
    ∃ s', descend fuel s = some s' := by
  intro fuel
  induction fuel with
  | zero => intro s h; omega
  | succ fuel ih =>
    intro s h
    unfold descend
    by_cases hc : check_collision s.board s.current_piece s.piece_x (s.piece_y + 1) = true
    · exact ⟨s, by rw [if_neg (not_not.mpr hc)]⟩
    · rw [if_pos hc]
      apply ih
      have h0 : ¬ cell_blocked s.board s.current_piece s.piece_x (s.piece_y + 1) 0 :=
        fun hb => hc ((check_collision_true_iff _ _ _ _).mpr ⟨0, hb⟩)
      have h20 : ¬ (s.piece_y + 1 + (s.current_piece.blocks.get 0).y ≥ 20) :=
        fun hge => h0 (Or.inr (Or.inr (Or.inl hge)))
      show (BOARD_HEIGHT - (s.piece_y + 1 + (s.current_piece.blocks.get 0).y)).toNat < fuel
      unfold BOARD_HEIGHT at h ⊢
      omega

theorem descend_drop_fuel (s : State) : ∃ s', descend (drop_fuel s) s = some s' :=
  descend_returns (drop_fuel s) s (Nat.lt_succ_self _)

/-! ## Game over (C4) -/

/-- The queue spawn sets the phase to 1 exactly when the new piece collides at
the spawn origin: from a Playing state with a well-formed bag, `spawn_piece`
returns, and the phase is 1 iff the spawned piece collides at `(3, 0)`. -/
theorem spawn_game_over_iff (R : Nat → Nat) (s : State) (hb : bag_ok s) (hp : s.game_state = 0) :
    ∃ s', spawn_piece R s = some s' ∧
      (s'.game_state = 1 ↔
        check_collision s'.board s'.current_piece s'.piece_x s'.piece_y = true) := by
  obtain ⟨s', h, hsp⟩ := spawn_piece_ok R s hb
  refine ⟨s', h, ?_⟩
  rw [hsp.phase, hsp.board, hsp.current, hsp.px, hsp.py, hp]
  cases check_collision s.board s.next_queue.q0 3 0 <;> simp

theorem moves_keep_phase (R : Nat → Nat) (m : Move) (s s' : State) (hm : m ≠ Move.hold)
    (h : apply_move R m s = some s') : s'.game_state = s.game_state := by
  cases m with
  | left =>
    simp only [apply_move] at h
    rw [← Option.some.inj h]
    split_ifs <;> rfl
  | right =>
    simp only [apply_move] at h
    rw [← Option.some.inj h]
    split_ifs <;> rfl
  | down =>
    simp only [apply_move] at h
    rw [← Option.some.inj h]
    split_ifs <;> rfl
  | rotate =>
    simp only [apply_move] at h
    rw [← Option.some.inj h]
    unfold rotate_piece
    simp only []
    split_ifs <;> rfl
  | hold => exact absurd rfl hm

set_option maxRecDepth 1000000 in
theorem tower_reached :
    init_game R0 INIT = some START_STATE ∧ reset_game R0 INIT = some START_STATE ∧
    run R0 TOWER_TRACE START_STATE = some TOWER_STATE := by
  decide

set_option maxRecDepth 100000 in
/-- C4 fails on the hold-swap path.  `TOWER_STATE` is reached from the
program start (`init_game`, or equally `reset_game`) by the inputs
`TOWER_TRACE`; it is a Playing state whose active L
piece does not collide, whose hold slot holds the I piece and whose hold flag
is clear.  There `hold_piece_action` activates the I piece at the spawn origin
`(3, 0)`, where it collides with the occupied cell `(6, 1)`, and the phase
stays 0 (Playing): `hold_piece_action` makes no collision test on this path. -/
theorem hold_swap_no_game_over :
    init_game R0 INIT = some START_STATE ∧ reset_game R0 INIT = some START_STATE ∧
    run R0 TOWER_TRACE START_STATE = some TOWER_STATE ∧
    TOWER_STATE.game_state = 0 ∧ TOWER_STATE.hold_locked = 0 ∧ TOWER_STATE.hold_idx = 0 ∧
    check_collision TOWER_STATE.board TOWER_STATE.current_piece TOWER_STATE.piece_x
      TOWER_STATE.piece_y = false ∧
    ∃ s', hold_piece_action R0 TOWER_STATE = some s' ∧
      s'.current_piece = shape_of 0 ∧ s'.piece_x = 3 ∧ s'.piece_y = 0 ∧
      check_collision s'.board s'.current_piece s'.piece_x s'.piece_y = true ∧
      s'.game_state = 0 := by
  refine ⟨tower_reached.1, tower_reached.2.1, tower_reached.2.2, by decide, by decide, by decide,
    by decide, _,
    hold_swap_ok R0 TOWER_STATE (by decide) 0 (by decide) (by decide) (by decide), ?_⟩
  decide

/-! ## Reachable states (C11, C12, C13) -/

theorem inside_of_free (b : Board) (p : Tetromino) (x y : Int)
    (h : check_collision b p x y = false) (i : Fin 4) :
    0 ≤ x + (p.blocks.get i).x ∧ x + (p.blocks.get i).x < 10 ∧ y + (p.blocks.get i).y < 20 := by
  have hn : ¬ cell_blocked b p x y i := by
    intro hb
    have := (check_collision_true_iff b p x y).mpr ⟨i, hb⟩
    rw [h] at this
    exact absurd this (by decide)
  unfold cell_blocked at hn
  refine ⟨?_, ?_, ?_⟩
  · by_contra hc; exact hn (Or.inl (by omega))
  · by_contra hc; exact hn (Or.inr (Or.inl (by omega)))
  · by_contra hc; exact hn (Or.inr (Or.inr (Or.inl (by omega))))

theorem shape_facts (p : Tetromino) (h : p ∈ SHAPES) :
    (0 ≤ p.type_idx ∧ p.type_idx < 7) ∧ 0 ≤ (p.blocks.get 1).y ∧
    ∀ i : Fin 4, 0 ≤ 3 + (p.blocks.get i).x ∧ 3 + (p.blocks.get i).x < 10 ∧
      0 + (p.blocks.get i).y < 20 := by
  simp only [SHAPES, List.mem_cons, List.mem_singleton, List.not_mem_nil, or_false] at h
  rcases h with h | h | h | h | h | h | h <;> subst h <;> decide

theorem countP_set_le {α : Type} (p : α → Bool) (a : α) : ∀ (l : List α) (i : Nat),
    (l.set i a).countP p ≤ l.countP p + 1 := by
  intro l
  induction l with
  | nil => intro i; simp
  | cons c t ih =>
    intro i
    cases i with
    | zero =>
      simp only [List.set_cons_zero, List.countP_cons]
      split_ifs <;> omega
    | succ n =>
      simp only [List.set_cons_succ, List.countP_cons]
      have := ih n
      omega

theorem countP_write_block_le (p : Tetromino) (px py : Int) (b : Board) (i : Fin 4) :
    (write_block p px py b i).countP is_full_row ≤ b.countP is_full_row + 1 := by
  unfold write_block
  simp only []
  split_ifs
  · exact countP_set_le _ _ _ _
  · omega

theorem countP_write_piece_le (p : Tetromino) (px py : Int) (b : Board) :
    (write_piece p px py b).countP is_full_row ≤ b.countP is_full_row + 4 := by
  unfold write_piece
  simp only [List.foldl_cons, List.foldl_nil]
  have h0 := countP_write_block_le p px py b 0
  have h1 := countP_write_block_le p px py (write_block p px py b 0) 1
  have h2 := countP_write_block_le p px py (write_block p px py (write_block p px py b 0) 1) 2
  have h3 := countP_write_block_le p px py
    (write_block p px py (write_block p px py (write_block p px py b 0) 1) 2) 3
  omega

theorem collapse_ok (b : Board) (hb : board_ok b) : board_ok (collapse b) := by
  obtain ⟨hlen, hr⟩ := hb
  unfold collapse
  refine ⟨?_, ?_⟩
  · have h1 := List.length_eq_countP_add_countP is_full_row b
    have h2 : List.countP (fun a => decide ¬is_full_row a = true) b
        = (b.filter (fun r => !is_full_row r)).length := by
      rw [List.countP_eq_length_filter]
      congr 1
      apply List.filter_congr
      intro x _
      cases is_full_row x <;> rfl
    rw [List.length_append, List.length_replicate, ← h2, ← h1]
    exact hlen
  · intro r hm
    rcases List.mem_append.mp hm with h | h
    · rw [List.eq_of_mem_replicate h]; rfl
    · exact hr _ (List.mem_of_mem_filter h)

theorem collapse_nofull (b : Board) : (collapse b).countP is_full_row = 0 := by
  unfold collapse
  rw [List.countP_eq_zero]
  intro r hm
  rcases List.mem_append.mp hm with h | h
  · rw [List.eq_of_mem_replicate h, is_full_row_empty]; decide
  · have := (List.mem_filter.mp h).2
    cases hf : is_full_row r
    · decide
    · rw [hf] at this; exact absurd this (by decide)

theorem spawn_inv (R : Nat → Nat) (s : State) (hb : Base s) :
    ∃ s', spawn_piece R s = some s' ∧ Spawned R s s' ∧ Inv s' := by
  obtain ⟨s', h, hsp⟩ := spawn_piece_ok R s hb.bag
  obtain ⟨hk, hc, hi⟩ := shape_facts s.next_queue.q0 hb.q0
  refine ⟨s', h, hsp, ?_⟩
  exact
    { base :=
        { board := by rw [hsp.board]; exact hb.board
          nofull := by rw [hsp.board]; exact hb.nofull
          bag := hsp.ok
          hold := by
            have := hb.hold
            unfold hold_ok at this ⊢
            rw [hsp.hold]; exact this
          q0 := by rw [hsp.q0]; exact hb.q1
          q1 := by rw [hsp.q1]; exact hb.q2
          q2 := by rw [hsp.q2]; exact shape_of_mem _ hsp.kind.1 hsp.kind.2 }
      kind := by rw [hsp.current]; exact hk
      center := by rw [hsp.current]; exact hc
      py := by rw [hsp.py]
      inside := by
        intro i
        rw [hsp.current, hsp.px, hsp.py]
        exact hi i }

theorem score_lines_frame (s s1 : State) (lines : Int) (h : score_lines s lines = some s1) :
    s1.board = s.board ∧ s1.bag = s.bag ∧ s1.bag_head = s.bag_head ∧
    s1.next_queue = s.next_queue ∧ s1.hold_idx = s.hold_idx := by
  unfold score_lines at h
  split_ifs at h
  · simp only [] at h
    split at h
    · exact absurd h (by simp)
    · split_ifs at h <;> (rw [← Option.some.inj h]; exact ⟨rfl, rfl, rfl, rfl, rfl⟩)
  · rw [← Option.some.inj h]
    exact ⟨rfl, rfl, rfl, rfl, rfl⟩

theorem lock_inv (R : Nat → Nat) (s : State) (hi : Inv s) :
    ∃ s', lock_piece R s = some s' ∧ Inv s' ∧
      (write_piece s.current_piece s.piece_x s.piece_y s.board).countP is_full_row ≤ 4 := by
  have hcount := countP_write_piece_le s.current_piece s.piece_x s.piece_y s.board
  rw [hi.base.nofull] at hcount
  have h4 : (write_piece s.current_piece s.piece_x s.piece_y s.board).countP is_full_row ≤ 4 := by
    omega
  obtain ⟨s1, s', e1, hok, _, _, hlock⟩ := lock_piece_ok R s hi.base.board hi.base.bag _ rfl h4
  obtain ⟨f1, f2, f3, f4, f5⟩ := score_lines_frame _ _ _ e1
  have hw := write_piece_ok s.current_piece s.piece_x s.piece_y s.board hi.base.board
  have hbase : Base s1 :=
    { board := by rw [f1]; exact collapse_ok _ hw
      nofull := by rw [f1]; exact collapse_nofull _
      bag := hok
      hold := by
        have := hi.base.hold
        unfold hold_ok at this ⊢
        rw [f5]; exact this
      q0 := by rw [f4]; exact hi.base.q0
      q1 := by rw [f4]; exact hi.base.q1
      q2 := by rw [f4]; exact hi.base.q2 }
  obtain ⟨s2, e2, _, hinv⟩ := spawn_inv R s1 hbase
  have hspawn : lock_piece R s = spawn_piece R s1 := by
    have hclear := clear_rows_of_fuel _ hw CLEAR_FUEL (Nat.le_refl _)
    unfold lock_piece
    simp only [hclear]
    have : (List.replicate
        (List.countP is_full_row (write_piece s.current_piece s.piece_x s.piece_y s.board))
        EMPTY_ROW ++ List.filter (fun r => !is_full_row r)
          (write_piece s.current_piece s.piece_x s.piece_y s.board))
        = collapse (write_piece s.current_piece s.piece_x s.piece_y s.board) := rfl
    rw [this, e1]
  exact ⟨s2, hspawn.trans e2, hinv, h4⟩

theorem rotated_center (p : Tetromino) : (rotated p).blocks.get 1 = p.blocks.get 1 := by
  rw [rotated_blocks, turn_center]

theorem base_of_eq (s s' : State) (hb : Base s) (h1 : s'.board = s.board) (h2 : s'.bag = s.bag)
    (h3 : s'.bag_head = s.bag_head) (h4 : s'.hold_idx = s.hold_idx)
    (h5 : s'.next_queue = s.next_queue) : Base s' :=
  { board := by rw [h1]; exact hb.board
    nofull := by rw [h1]; exact hb.nofull
    bag := by
      have := hb.bag
      unfold bag_ok at this ⊢
      rw [h2, h3]; exact this
    hold := by
      have := hb.hold
      unfold hold_ok at this ⊢
      rw [h4]; exact this
    q0 := by rw [h5]; exact hb.q0
    q1 := by rw [h5]; exact hb.q1
    q2 := by rw [h5]; exact hb.q2 }

theorem shift_inv (s : State) (x y : Int) (hi : Inv s) (hy : 0 ≤ y)
    (hc : check_collision s.board s.current_piece x y = false) :
    Inv { s with piece_x := x, piece_y := y } :=
  { base := base_of_eq s _ hi.base rfl rfl rfl rfl rfl
    kind := hi.kind
    center := hi.center
    py := hy
    inside := inside_of_free _ _ _ _ hc }

theorem turn_inv (s : State) (x : Int) (hi : Inv s)
    (hc : check_collision s.board (rotated s.current_piece) x s.piece_y = false) :
    Inv { s with current_piece := rotated s.current_piece, piece_x := x } :=
  { base := base_of_eq s _ hi.base rfl rfl rfl rfl rfl
    kind := by
      show 0 ≤ (rotated s.current_piece).type_idx ∧ (rotated s.current_piece).type_idx < 7
      rw [(rotated_fields _).2.2]; exact hi.kind
    center := by
      show 0 ≤ ((rotated s.current_piece).blocks.get 1).y
      rw [rotated_center]; exact hi.center
    py := hi.py
    inside := inside_of_free _ _ _ _ hc }

theorem move_inv (R : Nat → Nat) (m : Move) (s s' : State) (hm : m ≠ Move.hold) (hi : Inv s)
    (h : apply_move R m s = some s') : Inv s' := by
  have hpy := hi.py
  cases m with
  | left =>
    simp only [apply_move] at h
    rw [← Option.some.inj h]
    split_ifs with hc
    all_goals first
      | exact hi
      | exact shift_inv s (s.piece_x - 1) s.piece_y hi hpy (by simpa using hc)
  | right =>
    simp only [apply_move] at h
    rw [← Option.some.inj h]
    split_ifs with hc
    all_goals first
      | exact hi
      | exact shift_inv s (s.piece_x + 1) s.piece_y hi hpy (by simpa using hc)
  | down =>
    simp only [apply_move] at h
    rw [← Option.some.inj h]
    split_ifs with hc
    all_goals first
      | exact hi
      | exact shift_inv s s.piece_x (s.piece_y + 1) hi (by omega) (by simpa using hc)
  | rotate =>
    simp only [apply_move] at h
    rw [← Option.some.inj h]
    obtain ⟨hO, hN⟩ := rotate_piece_cases s
    by_cases h4 : s.current_piece.color_idx = 4
    · rw [hO h4]; exact hi
    · obtain ⟨c0, c1, c2, c3⟩ := hN h4
      cases h1 : check_collision s.board (rotated s.current_piece) s.piece_x s.piece_y with
      | false => rw [c0 h1]; exact turn_inv s _ hi h1
      | true =>
        cases h2 : check_collision s.board (rotated s.current_piece) (s.piece_x - 1) s.piece_y with
        | false => rw [c1 h1 h2]; exact turn_inv s _ hi h2
        | true =>
          cases h3 : check_collision s.board (rotated s.current_piece) (s.piece_x + 1)
              s.piece_y with
          | false => rw [c2 h1 h2 h3]; exact turn_inv s _ hi h3
          | true => rw [c3 h1 h2 h3]; exact hi
  | hold => exact absurd rfl hm

theorem inv_of_eq (s s' : State) (hi : Inv s) (h1 : s'.board = s.board) (h2 : s'.bag = s.bag)
    (h3 : s'.bag_head = s.bag_head) (h4 : s'.hold_idx = s.hold_idx)
    (h5 : s'.next_queue = s.next_queue) (h6 : s'.current_piece = s.current_piece)
    (h7 : s'.piece_x = s.piece_x) (h8 : s'.piece_y = s.piece_y) : Inv s' :=
  { base := base_of_eq s s' hi.base h1 h2 h3 h4 h5
    kind := by rw [h6]; exact hi.kind
    center := by rw [h6]; exact hi.center
    py := by rw [h8]; exact hi.py
    inside := by
      intro i
      rw [h6, h7, h8]
      exact hi.inside i }

theorem hold_inv (R : Nat → Nat) (s : State) (hi : Inv s) :
    ∃ s', hold_piece_action R s = some s' ∧ Inv s' := by
  by_cases hl : s.hold_locked = 0
  · by_cases he : s.hold_idx = -1
    · have hbase : Base { s with hold_idx := s.current_piece.type_idx } :=
        { board := hi.base.board
          nofull := hi.base.nofull
          bag := hi.base.bag
          hold := Or.inr hi.kind
          q0 := hi.base.q0
          q1 := hi.base.q1
          q2 := hi.base.q2 }
      obtain ⟨s1, e, _, hinv⟩ := spawn_inv R _ hbase
      refine ⟨{ s1 with hold_locked := 1 }, ?_, inv_of_eq s1 _ hinv rfl rfl rfl rfl rfl rfl rfl rfl⟩
      unfold hold_piece_action
      rw [if_neg (by simp [hl]), if_pos he, e]
    · have hr : 0 ≤ s.hold_idx ∧ s.hold_idx < 7 := by
        rcases hi.base.hold with h | h
        · exact absurd h he
        · exact h
      obtain ⟨hk, hc, hin⟩ := shape_facts _ (shape_of_mem s.hold_idx hr.1 hr.2)
      refine ⟨_, hold_swap_ok R s hl s.hold_idx rfl hr.1 hr.2, ?_⟩
      exact
        { base :=
            { board := hi.base.board
              nofull := hi.base.nofull
              bag := hi.base.bag
              hold := Or.inr hi.kind
              q0 := hi.base.q0
              q1 := hi.base.q1
              q2 := hi.base.q2 }
          kind := hk
          center := hc
          py := le_refl _
          inside := hin }
  · exact ⟨s, hold_locked_noop R s hl, hi⟩

theorem descend_spec (j : Fin 4) : ∀ (fuel : Nat) (s : State),
    (BOARD_HEIGHT - (s.piece_y + (s.current_piece.blocks.get j).y)).toNat < fuel →
    ∃ y' : Int, s.piece_y ≤ y' ∧ descend fuel s = some { s with piece_y := y' } ∧
      check_collision s.board s.current_piece s.piece_x (y' + 1) = true ∧
      (∀ y : Int, s.piece_y ≤ y → y < y' →
        check_collision s.board s.current_piece s.piece_x (y + 1) = false) ∧
      (y' = s.piece_y ∨ check_collision s.board s.current_piece s.piece_x y' = false) := by
  intro fuel
  induction fuel with
  | zero => intro s h; omega
  | succ fuel ih =>
    intro s h
    unfold descend
    by_cases hc : check_collision s.board s.current_piece s.piece_x (s.piece_y + 1) = true
    · refine ⟨s.piece_y, le_refl _, by rw [if_neg (not_not.mpr hc)], hc, ?_, Or.inl rfl⟩
      intro y h1 h2
      omega
    · rw [if_pos hc]
      have hf : check_collision s.board s.current_piece s.piece_x (s.piece_y + 1) = false := by
        simpa using hc
      have hj := (inside_of_free _ _ _ _ hf j).2.2
      obtain ⟨y', h1, h2, h3, h4, h5⟩ := ih { s with piece_y := s.piece_y + 1 } (by
        show (BOARD_HEIGHT - (s.piece_y + 1 + (s.current_piece.blocks.get j).y)).toNat < fuel
        unfold BOARD_HEIGHT at h ⊢
        omega)
      have h1' : s.piece_y + 1 ≤ y' := h1
      refine ⟨y', by omega, h2, h3, ?_, Or.inr ?_⟩
      · intro y hy1 hy2
        by_cases hy : y = s.piece_y
        · rw [hy]; exact hf
        · exact h4 y (by show s.piece_y + 1 ≤ y; omega) hy2
      · rcases h5 with h5 | h5
        · have : y' = s.piece_y + 1 := h5
          rw [this]; exact hf
        · exact h5

theorem landing_unique (s : State) (y1 y2 : Int) (a1 : s.piece_y ≤ y1) (a2 : s.piece_y ≤ y2)
    (c1 : check_collision s.board s.current_piece s.piece_x (y1 + 1) = true)
    (c2 : check_collision s.board s.current_piece s.piece_x (y2 + 1) = true)
    (f1 : ∀ y : Int, s.piece_y ≤ y → y < y1 →
      check_collision s.board s.current_piece s.piece_x (y + 1) = false)
    (f2 : ∀ y : Int, s.piece_y ≤ y → y < y2 →
      check_collision s.board s.current_piece s.piece_x (y + 1) = false) : y1 = y2 := by
  rcases lt_trichotomy y1 y2 with h | h | h
  · have := f2 y1 a1 h
    rw [c1] at this
    exact absurd this (by decide)
  · exact h
  · have := f1 y2 a2 h
    rw [c2] at this
    exact absurd this (by decide)

theorem hard_drop_landing (R : Nat → Nat) (s : State) (hi : Inv s) :
    ∃ y' : Int, s.piece_y ≤ y' ∧ y' ≤ s.piece_y + 19 ∧
      (∀ fuel : Nat, 21 ≤ fuel → descend fuel s = some { s with piece_y := y' }) ∧
      descend (drop_fuel s) s = some { s with piece_y := y' } ∧
      check_collision s.board s.current_piece s.piece_x (y' + 1) = true ∧
      (∀ y : Int, s.piece_y ≤ y → y < y' →
        check_collision s.board s.current_piece s.piece_x (y + 1) = false) ∧
      drop_piece_hard R s = lock_piece R { s with piece_y := y' } ∧
      Inv { s with piece_y := y' } := by
  have hpy := hi.py
  have hcen := hi.center
  have hm : (BOARD_HEIGHT - (s.piece_y + (s.current_piece.blocks.get 1).y)).toNat < 21 := by
    unfold BOARD_HEIGHT
    omega
  obtain ⟨y', h1, h2, h3, h4, h5⟩ := descend_spec 1 21 s hm
  obtain ⟨y0, g1, g2, g3, g4, _⟩ := descend_spec 0 (drop_fuel s) s (Nat.lt_succ_self _)
  have hy0 : y0 = y' := landing_unique s y0 y' g1 h1 g3 h3 g4 h4
  rw [hy0] at g2
  have hinv : Inv { s with piece_y := y' } := by
    rcases h5 with h5 | h5
    · rw [h5]; exact hi
    · exact shift_inv s s.piece_x y' hi (by omega) h5
  have hbound : y' ≤ s.piece_y + 19 := by
    have := (hinv.inside 1).2.2
    have hc : 0 ≤ (s.current_piece.blocks.get 1).y := hcen
    have : y' + (s.current_piece.blocks.get 1).y < 20 := this
    omega
  refine ⟨y', h1, hbound, ?_, g2, h3, h4, ?_, hinv⟩
  · intro fuel hf
    obtain ⟨y2, k1, k2, k3, k4, _⟩ := descend_spec 1 fuel s (by omega)
    have : y2 = y' := landing_unique s y2 y' k1 h1 k3 h3 k4 h4
    rw [this] at k2
    exact k2
  · unfold drop_piece_hard
    rw [g2]

theorem tick_inv (R : Nat → Nat) (s : State) (hi : Inv s) :
    ∃ s', tick R s = some s' ∧ Inv s' := by
  unfold tick
  by_cases hc : check_collision s.board s.current_piece s.piece_x (s.piece_y + 1) = true
  · rw [if_neg (not_not.mpr hc)]
    obtain ⟨s', h, hinv, _⟩ := lock_inv R s hi
    exact ⟨s', h, hinv⟩
  · rw [if_pos hc]
    have hpy := hi.py
    exact ⟨_, rfl, shift_inv s s.piece_x (s.piece_y + 1) hi (by omega) (by simpa using hc)⟩

theorem hard_drop_inv (R : Nat → Nat) (s : State) (hi : Inv s) :
    ∃ s', drop_piece_hard R s = some s' ∧ Inv s' := by
  obtain ⟨y', _, _, _, _, _, _, hd, hinv⟩ := hard_drop_landing R s hi
  obtain ⟨s', h, hinv', _⟩ := lock_inv R _ hinv
  exact ⟨s', hd.trans h, hinv'⟩

theorem empty_board_ok : board_ok EMPTY_BOARD := by decide

theorem empty_board_nofull : EMPTY_BOARD.countP is_full_row = 0 := by decide

theorem reset_inv (R : Nat → Nat) (s : State) (hb : board_ok s.board) (hlen : s.bag.length = 7) :
    ∃ s', reset_game R s = some s' ∧ Inv s' := by
  have hs3 : bag_ok (shuffle_bag R
      { s with board := EMPTY_BOARD, score := 0, lines_cleared_total := 0, level := 1,
               game_state := 0, hold_idx := -1, hold_locked := 0, bag_head := 7 }) := by
    have hp := shuffle_bag_perm R
      { s with board := EMPTY_BOARD, score := 0, lines_cleared_total := 0, level := 1,
               game_state := 0, hold_idx := -1, hold_locked := 0, bag_head := 7 } hlen
    refine ⟨hp.length_eq, (by decide : (0 : Int) ≤ 0), ?_⟩
    intro k hk
    have : k ∈ KINDS := hp.subset hk
    simp [KINDS] at this
    omega
  generalize hS3 : shuffle_bag R
      { s with board := EMPTY_BOARD, score := 0, lines_cleared_total := 0, level := 1,
               game_state := 0, hold_idx := -1, hold_locked := 0, bag_head := 7 } = s3 at hs3
  have f3 : s3.board = EMPTY_BOARD ∧ s3.hold_idx = -1 := by
    rw [← hS3]; exact ⟨rfl, rfl⟩
  obtain ⟨k0, s4, g0, hk0, ok4, a1, _, _, _, _, a6, _⟩ := draw_ok R s3 hs3
  obtain ⟨k1, s5, g1, hk1, ok5, b1, _, _, _, _, b6, b7⟩ :=
    draw_ok R { s4 with next_queue := { s4.next_queue with q0 := shape_of k0 } } ok4
  obtain ⟨k2, s6, g2, hk2, ok6, c1, _, _, _, _, c6, c7⟩ :=
    draw_ok R { s5 with next_queue := { s5.next_queue with q1 := shape_of k1 } } ok5
  have hq0 : s6.next_queue.q0 = shape_of k0 := by rw [c7, b7]
  have hq1 : s6.next_queue.q1 = shape_of k1 := by rw [c7]
  have hboard : s6.board = EMPTY_BOARD := c1.trans (b1.trans (a1.trans f3.1))
  have hhold : s6.hold_idx = -1 := c6.trans (b6.trans (a6.trans f3.2))
  have hbase : Base { s6 with next_queue := { s6.next_queue with q2 := shape_of k2 } } :=
    { board := by show board_ok s6.board; rw [hboard]; exact empty_board_ok
      nofull := by show s6.board.countP is_full_row = 0; rw [hboard]; exact empty_board_nofull
      bag := ok6
      hold := Or.inl hhold
      q0 := by show s6.next_queue.q0 ∈ SHAPES; rw [hq0]; exact shape_of_mem _ hk0.1 hk0.2
      q1 := by show s6.next_queue.q1 ∈ SHAPES; rw [hq1]; exact shape_of_mem _ hk1.1 hk1.2
      q2 := shape_of_mem _ hk2.1 hk2.2 }
  obtain ⟨s', hsp, _, hinv⟩ := spawn_inv R _ hbase
  refine ⟨s', ?_, hinv⟩
  unfold reset_game
  simp only [zero_board_eq s.board hb]
  rw [hS3, g0]
  simp only []
  rw [g1]
  simp only []
  rw [g2]
  exact hsp

theorem play_inv (R : Nat → Nat) (i : Input) (s : State) (hi : Inv s) :
    ∃ s', play R i s = some s' ∧ Inv s' := by
  unfold play
  by_cases hg : s.game_state = 0
  · rw [if_pos hg]
    cases i with
    | key m =>
      by_cases hm : m = Move.hold
      · subst hm
        exact hold_inv R s hi
      · cases h : apply_move R m s with
        | none =>
          cases m <;> simp [apply_move] at h
          exact absurd rfl hm
        | some s' => exact ⟨s', h, move_inv R m s s' hm hi h⟩
    | hard_drop => exact hard_drop_inv R s hi
    | restart => exact ⟨s, rfl, hi⟩
    | tick => exact tick_inv R s hi
  · rw [if_neg hg]
    cases i with
    | key m => exact ⟨s, rfl, hi⟩
    | hard_drop => exact ⟨s, rfl, hi⟩
    | restart => exact reset_inv R s hi.base.board hi.base.bag.1
    | tick => exact ⟨s, rfl, hi⟩

theorem run_inv (R : Nat → Nat) : ∀ (inputs : List Input) (s : State), Inv s →
    ∃ s', run R inputs s = some s' ∧ Inv s' := by
  intro inputs
  induction inputs with
  | nil => intro s hi; exact ⟨s, rfl, hi⟩
  | cons i rest ih =>
    intro s hi
    obtain ⟨s1, h1, hi1⟩ := play_inv R i s hi
    obtain ⟨s2, h2, hi2⟩ := ih s1 hi1
    refine ⟨s2, ?_, hi2⟩
    unfold run
    rw [h1]
    exact h2

theorem reachable_inv (R : Nat → Nat) (s : State) (hr : Reachable R s) : Inv s := by
  obtain ⟨s0, s1, inputs, hb, hlen, h1, h2⟩ := hr
  obtain ⟨s1', e1, hi1⟩ := reset_inv R s0 hb hlen
  rw [h1] at e1
  rw [← Option.some.inj e1] at hi1
  obtain ⟨s', e2, hi2⟩ := run_inv R inputs s1 hi1
  rw [h2] at e2
  rw [Option.some.inj e2]
  exact hi2

theorem reachable_step (R : Nat → Nat) (s s' : State) (more : List Input) (hr : Reachable R s)
    (h : run R more s = some s') : Reachable R s' := by
  obtain ⟨s0, s1, inputs, hb, hlen, h1, h2⟩ := hr
  refine ⟨s0, s1, inputs ++ more, hb, hlen, h1, ?_⟩
  have happ : ∀ (l : List Input) (a : State), run R l a = some s →
      run R (l ++ more) a = some s' := by
    intro l
    induction l with
    | nil =>
      intro a ha
      have : a = s := Option.some.inj ha
      rw [this]; exact h
    | cons i rest ih =>
      intro a ha
      unfold run at ha
      show run R (i :: (rest ++ more)) a = some s'
      unfold run
      cases hp : play R i a with
      | none => rw [hp] at ha; exact absurd ha (by simp)
      | some b =>
        rw [hp] at ha
        exact ih b ha
  exact happ inputs s1 h2

theorem getD_set {α : Type} (l : List α) (i j : Nat) (a d : α) :
    (l.set i a).getD j d = if j = i ∧ i < l.length then a else l.getD j d := by
  simp only [List.getD_eq_getElem?_getD, List.getElem?_set]
  by_cases hij : i = j
  · subst hij
    by_cases hl : i < l.length
    · simp [hl]
    · simp [hl, List.getElem?_eq_none (not_lt.mp hl)]
  · have hji : ¬ (j = i) := fun h => hij h.symm
    simp [hij, hji]

theorem get_put (b : Board) (y x y' x' : Nat) (v : Int) :
    (b.put y x v).get y' x' =
      if y' = y ∧ x' = x ∧ y < b.length ∧ x < (b.getD y []).length then v else b.get y' x' := by
  unfold Board.get Board.put
  rw [getD_set]
  by_cases h1 : y' = y ∧ y < b.length
  · rw [if_pos h1, getD_set]
    obtain ⟨e, hl⟩ := h1
    subst e
    by_cases h2 : x' = x ∧ x < (b.getD y' []).length
    · rw [if_pos h2, if_pos ⟨rfl, h2.1, hl, h2.2⟩]
    · rw [if_neg h2, if_neg (fun h => h2 ⟨h.2.1, h.2.2.2⟩)]
  · rw [if_neg h1, if_neg (fun h => h1 ⟨h.1, h.2.2.1⟩)]

theorem write_block_keep (p : Tetromino) (px py : Int) (b : Board) (j : Fin 4) (y x : Nat)
    (h : b.get y x = p.color_idx) : (write_block p px py b j).get y x = p.color_idx := by
  unfold write_block
  simp only []
  split_ifs
  · rw [get_put]
    split_ifs
    · rfl
    · exact h
  · exact h

theorem write_block_same (p : Tetromino) (px py : Int) (b : Board) (j : Fin 4) (hb : board_ok b)
    (h1 : 0 ≤ px + (p.blocks.get j).x) (h2 : px + (p.blocks.get j).x < 10)
    (h3 : 0 ≤ py + (p.blocks.get j).y) (h4 : py + (p.blocks.get j).y < 20) :
    (write_block p px py b j).get (py + (p.blocks.get j).y).toNat (px + (p.blocks.get j).x).toNat
      = p.color_idx := by
  obtain ⟨hlen, hr⟩ := hb
  have h20 : BOARD_HEIGHT.toNat = 20 := rfl
  have h10 : BOARD_WIDTH.toNat = 10 := rfl
  have hy : (py + (p.blocks.get j).y).toNat < b.length := by omega
  have hrow : (b.getD (py + (p.blocks.get j).y).toNat []).length = 10 := by
    rw [List.getD_eq_getElem _ _ hy]; exact hr _ (List.getElem_mem _)
  unfold write_block
  simp only []
  rw [if_pos (by unfold BOARD_HEIGHT BOARD_WIDTH; omega), get_put, if_pos]
  exact ⟨rfl, rfl, hy, by rw [hrow]; omega⟩

theorem write_piece_cell (p : Tetromino) (px py : Int) (b : Board) (hb : board_ok b) (i : Fin 4)
    (h1 : 0 ≤ px + (p.blocks.get i).x) (h2 : px + (p.blocks.get i).x < 10)
    (h3 : 0 ≤ py + (p.blocks.get i).y) (h4 : py + (p.blocks.get i).y < 20) :
    (write_piece p px py b).get (py + (p.blocks.get i).y).toNat (px + (p.blocks.get i).x).toNat
      = p.color_idx := by
  have b0 := write_block_ok p px py b 0 hb
  have b1 := write_block_ok p px py _ 1 b0
  have b2 := write_block_ok p px py _ 2 b1
  unfold write_piece
  simp only [List.foldl_cons, List.foldl_nil]
  fin_cases i
  · exact write_block_keep _ _ _ _ _ _ _ (write_block_keep _ _ _ _ _ _ _
      (write_block_keep _ _ _ _ _ _ _ (write_block_same p px py b 0 hb h1 h2 h3 h4)))
  · exact write_block_keep _ _ _ _ _ _ _ (write_block_keep _ _ _ _ _ _ _
      (write_block_same p px py _ 1 b0 h1 h2 h3 h4))
  · exact write_block_keep _ _ _ _ _ _ _ (write_block_same p px py _ 2 b1 h1 h2 h3 h4)
  · exact write_block_same p px py _ 3 b2 h1 h2 h3 h4

theorem inv_cells_locked (s : State) (hi : Inv s) : cells_locked s := by
  intro i
  obtain ⟨h1, h2, h3⟩ := hi.inside i
  exact ⟨⟨h1, h2, h3⟩, fun h0 =>
    write_piece_cell s.current_piece s.piece_x s.piece_y s.board hi.base.board i h1 h2 h0 h3⟩

theorem start_reachable : Reachable R0 START_STATE :=
  ⟨INIT, START_STATE, [], by decide, by decide, tower_reached.2.1, rfl⟩

theorem tower_reachable : Reachable R0 TOWER_STATE :=
  ⟨INIT, START_STATE, TOWER_TRACE, by decide, by decide, tower_reached.2.1, tower_reached.2.2⟩

set_option maxRecDepth 1000000 in
theorem drop_reached : run R0 DROP_TRACE START_STATE = some DROP_STATE := by
  decide

theorem drop_reachable : Reachable R0 DROP_STATE :=
  ⟨INIT, START_STATE, DROP_TRACE, by decide, by decide, tower_reached.2.1, drop_reached⟩

/-- C11. In every state reachable from `reset_game` by game operations, the
descent loop of `drop_piece_hard` terminates after at most 20 increments of
`piece_y` (any fuel from 21 loop tests on is enough, and `y' - piece_y <= 20`):
it returns the state with only `piece_y` changed, to the first row
`y' >= piece_y` for which the piece collides at `(piece_x, y' + 1)`;
`lock_piece` is then invoked with the piece at `(piece_x, y')`, and returns. -/
theorem hard_drop_descent (R : Nat → Nat) (s : State) (hr : Reachable R s) :
    ∃ y' : Int, s.piece_y ≤ y' ∧ y' - s.piece_y ≤ 20 ∧
      (∀ fuel : Nat, 21 ≤ fuel → descend fuel s = some { s with piece_y := y' }) ∧
      check_collision s.board s.current_piece s.piece_x (y' + 1) = true ∧
      (∀ y : Int, s.piece_y ≤ y → y < y' →
        check_collision s.board s.current_piece s.piece_x (y + 1) = false) ∧
      drop_piece_hard R s = lock_piece R { s with piece_y := y' } ∧
      ∃ s', drop_piece_hard R s = some s' := by
  have hi := reachable_inv R s hr
  obtain ⟨y', h1, h2, h3, _, h5, h6, h7, _⟩ := hard_drop_landing R s hi
  obtain ⟨s', h8, _⟩ := hard_drop_inv R s hi
  exact ⟨y', h1, by omega, h3, h5, h6, h7, s', h8⟩

set_option maxRecDepth 1000000 in
/-- Witness of C11: from `START_STATE` (the T piece at the spawn origin of the
empty board) the descent stops after 18 increments, at row 18. -/
theorem hard_drop_descent_witness :
    Reachable R0 START_STATE ∧ START_STATE.piece_y = 0 ∧
    descend 21 START_STATE = some { START_STATE with piece_y := 18 } ∧
    drop_piece_hard R0 START_STATE = lock_piece R0 { START_STATE with piece_y := 18 } := by
  obtain ⟨y', _, _, h3, _, _, h6, _⟩ := hard_drop_descent R0 START_STATE start_reachable
  have d : descend 21 START_STATE = some { START_STATE with piece_y := 18 } := by decide
  have e := h3 21 (le_refl _)
  rw [d] at e
  have hy : y' = 18 := (congrArg State.piece_y (Option.some.inj e)).symm
  rw [hy] at h6
  exact ⟨start_reachable, rfl, d, h6⟩

/-- C12. In every state reachable from `reset_game` by game operations the
board contains no full row; hence a lock event (by a tick at this state, or at
the landing state of a hard drop) makes at most 4 rows full, the clearing loop
counts that number, the read `points[lines]` is within the 5-entry table,
`lock_piece` returns and leaves a board without a full row; and every further
sequence of inputs runs without any out-of-bounds read. -/
theorem lock_clears_at_most_four (R : Nat → Nat) (s : State) (hr : Reachable R s) :
    s.board.countP is_full_row = 0 ∧
    (write_piece s.current_piece s.piece_x s.piece_y s.board).countP is_full_row ≤ 4 ∧
    clear_rows CLEAR_FUEL (write_piece s.current_piece s.piece_x s.piece_y s.board) =
      some (collapse (write_piece s.current_piece s.piece_x s.piece_y s.board),
        (((write_piece s.current_piece s.piece_x s.piece_y s.board).countP is_full_row : Nat)
          : Int)) ∧
    (∃ pts, points[(write_piece s.current_piece s.piece_x s.piece_y s.board).countP
        is_full_row]? = some pts) ∧
    (∃ s', lock_piece R s = some s' ∧ s'.board.countP is_full_row = 0) ∧
    (∀ s1, descend (drop_fuel s) s = some s1 →
      (write_piece s1.current_piece s1.piece_x s1.piece_y s1.board).countP is_full_row ≤ 4 ∧
      ∃ s', lock_piece R s1 = some s' ∧ s'.board.countP is_full_row = 0) ∧
    (∀ inputs : List Input, ∃ s', run R inputs s = some s') := by
  have hi := reachable_inv R s hr
  obtain ⟨s', h1, hi', h4⟩ := lock_inv R s hi
  refine ⟨hi.base.nofull, h4, ?_, ?_, ⟨s', h1, hi'.base.nofull⟩, ?_, ?_⟩
  · exact clear_rows_of_fuel _
      (write_piece_ok s.current_piece s.piece_x s.piece_y s.board hi.base.board) CLEAR_FUEL
      (Nat.le_refl _)
  · have hlt : (write_piece s.current_piece s.piece_x s.piece_y s.board).countP is_full_row
        < points.length := by
      show _ < 5
      omega
    exact ⟨_, List.getElem?_eq_getElem hlt⟩
  · intro s1 hd
    obtain ⟨y', _, _, _, g, _, _, _, hinv⟩ := hard_drop_landing R s hi
    rw [g] at hd
    rw [← Option.some.inj hd]
    obtain ⟨s2, k1, k2, k3⟩ := lock_inv R _ hinv
    exact ⟨k3, s2, k1, k2.base.nofull⟩
  · intro inputs
    obtain ⟨s2, h, _⟩ := run_inv R inputs s hi
    exact ⟨s2, h⟩

set_option maxRecDepth 1000000 in
/-- Witness of C12: `TOWER_STATE` is reachable; its board has no full row and
a lock there clears no row. -/
theorem lock_clears_at_most_four_witness :
    Reachable R0 TOWER_STATE ∧ TOWER_STATE.board.countP is_full_row = 0 ∧
    clear_rows CLEAR_FUEL (write_piece TOWER_STATE.current_piece TOWER_STATE.piece_x
      TOWER_STATE.piece_y TOWER_STATE.board) =
      some (write_piece TOWER_STATE.current_piece TOWER_STATE.piece_x
        TOWER_STATE.piece_y TOWER_STATE.board, 0) ∧
    ∃ s', lock_piece R0 TOWER_STATE = some s' ∧ s'.board.countP is_full_row = 0 :=
  ⟨tower_reachable, (lock_clears_at_most_four R0 TOWER_STATE tower_reachable).1,
    (lock_clears_at_most_four R0 TOWER_STATE tower_reachable).2.2.1.trans (by decide),
    (lock_clears_at_most_four R0 TOWER_STATE tower_reachable).2.2.2.2.1⟩

set_option maxRecDepth 1000000 in
/-- C13 fails.  `DROP_STATE` is a Playing state reached from `reset_game` by
the inputs `DROP_TRACE`, in which the Z piece was rotated once at the spawn
row.  A tick there invokes `lock_piece` (the piece collides one row lower),
but the first block of the piece has row -1, so not all four cells have their
row in `[0, 20)`: only three cells are written with the colour tag 7, and the
game goes on in the Playing phase. -/
theorem lock_drops_cell :
    Reachable R0 DROP_STATE ∧ DROP_STATE.game_state = 0 ∧
    check_collision DROP_STATE.board DROP_STATE.current_piece DROP_STATE.piece_x
      (DROP_STATE.piece_y + 1) = true ∧
    tick R0 DROP_STATE = lock_piece R0 DROP_STATE ∧
    DROP_STATE.piece_y + (DROP_STATE.current_piece.blocks.get 0).y = -1 ∧
    ¬ (∀ i : Fin 4,
        (0 ≤ DROP_STATE.piece_y + (DROP_STATE.current_piece.blocks.get i).y ∧
         DROP_STATE.piece_y + (DROP_STATE.current_piece.blocks.get i).y < 20) ∧
        (0 ≤ DROP_STATE.piece_x + (DROP_STATE.current_piece.blocks.get i).x ∧
         DROP_STATE.piece_x + (DROP_STATE.current_piece.blocks.get i).x < 10)) ∧
    colour_count (write_piece DROP_STATE.current_piece DROP_STATE.piece_x DROP_STATE.piece_y
      DROP_STATE.board) 7 = colour_count DROP_STATE.board 7 + 3 ∧
    ∃ s', lock_piece R0 DROP_STATE = some s' ∧ s'.game_state = 0 ∧
      colour_count s'.board 7 = colour_count DROP_STATE.board 7 + 3 := by
  refine ⟨drop_reachable, by decide, by decide, by decide, by decide, by decide, by decide, ?_⟩
  obtain ⟨s', h, _⟩ := lock_inv R0 DROP_STATE (reachable_inv R0 DROP_STATE drop_reachable)
  have e : (lock_piece R0 DROP_STATE).map
      (fun t => (t.game_state, colour_count t.board 7)) =
      some (0, colour_count DROP_STATE.board 7 + 3) := by decide
  rw [h] at e
  have e' := Option.some.inj e
  exact ⟨s', h, congrArg Prod.fst e', congrArg Prod.snd e'⟩

/-- C13 as amended.  In every state reachable from `reset_game` by game
operations, when `lock_piece` is invoked by a tick (at this state) or by a
hard drop (at its landing state), all four cells of the active piece have
their column in `[0, 10)` and their row `< 20`, and every cell whose row is
`>= 0` is written to the board with the colour tag of the piece; a cell with a
negative row is not written. -/
theorem lock_writes_cells (R : Nat → Nat) (s : State) (hr : Reachable R s) :
    (∀ i : Fin 4,
      (0 ≤ s.piece_x + (s.current_piece.blocks.get i).x ∧
       s.piece_x + (s.current_piece.blocks.get i).x < 10 ∧
       s.piece_y + (s.current_piece.blocks.get i).y < 20) ∧
      (0 ≤ s.piece_y + (s.current_piece.blocks.get i).y →
        (write_piece s.current_piece s.piece_x s.piece_y s.board).get
            (s.piece_y + (s.current_piece.blocks.get i).y).toNat
            (s.piece_x + (s.current_piece.blocks.get i).x).toNat
          = s.current_piece.color_idx) ∧
      (s.piece_y + (s.current_piece.blocks.get i).y < 0 →
        write_block s.current_piece s.piece_x s.piece_y s.board i = s.board)) ∧
    (∀ s1, descend (drop_fuel s) s = some s1 → cells_locked s1) := by
  have hi := reachable_inv R s hr
  refine ⟨?_, ?_⟩
  · intro i
    refine ⟨(inv_cells_locked s hi i).1, (inv_cells_locked s hi i).2, ?_⟩
    intro hneg
    unfold write_block
    simp only []
    rw [if_neg (by omega)]
  · intro s1 hd
    obtain ⟨y', _, _, _, g, _, _, _, hinv⟩ := hard_drop_landing R s hi
    rw [g] at hd
    rw [← Option.some.inj hd]
    exact inv_cells_locked _ hinv

set_option maxRecDepth 1000000 in
/-- Witness of C13 as amended: in `DROP_STATE` the three cells of the Z piece
with rows 0, 0 and 1 are written with the colour tag 7. -/
theorem lock_writes_cells_witness :
    Reachable R0 DROP_STATE ∧
    (write_piece DROP_STATE.current_piece DROP_STATE.piece_x DROP_STATE.piece_y
      DROP_STATE.board).get 0 8 = 7 ∧
    (write_piece DROP_STATE.current_piece DROP_STATE.piece_x DROP_STATE.piece_y
      DROP_STATE.board).get 0 7 = 7 ∧
    (write_piece DROP_STATE.current_piece DROP_STATE.piece_x DROP_STATE.piece_y
      DROP_STATE.board).get 1 7 = 7 :=
  ⟨drop_reachable,
    ((lock_writes_cells R0 DROP_STATE drop_reachable).1 1).2.1 (by decide),
    ((lock_writes_cells R0 DROP_STATE drop_reachable).1 2).2.1 (by decide),
    ((lock_writes_cells R0 DROP_STATE drop_reachable).1 3).2.1 (by decide)⟩

/-! ## Hold across a restart (C6) -/

set_option maxRecDepth 1000000 in
theorem brink_reached :
    run R0 (BRINK_PREFIX ++ [Input.tick]) START_STATE = some BRINK_STATE ∧
    (run R0 BRINK_PREFIX START_STATE).map (lock_event Input.tick) = some true := by
  decide

theorem brink_reachable : Reachable R0 BRINK_STATE :=
  ⟨INIT, START_STATE, BRINK_PREFIX ++ [Input.tick], by decide, by decide, tower_reached.2.1,
    brink_reached.1⟩

set_option maxRecDepth 1000000 in
/-- The last sentence of C6 fails across a restart.  `BRINK_STATE` is a
Playing state reached from `reset_game` by `BRINK_PREFIX` and a tick that calls
`lock_piece`.  From it the inputs hold, restart, hold contain no call of
`lock_piece` and one call of `reset_game`, and both holds change the state:
the first hold spawns the I piece onto the occupied cell `(6, 1)` and ends the
game, the restart starts a new game with the flag clear, and the second hold
acts again.  A hard drop then gives the next lock event. -/
theorem two_holds_between_locks :
    Reachable R0 BRINK_STATE ∧
    reset_game R0 INIT = some START_STATE ∧
    run R0 (BRINK_PREFIX ++ [Input.tick]) START_STATE = some BRINK_STATE ∧
    (run R0 BRINK_PREFIX START_STATE).map (lock_event Input.tick) = some true ∧
    BRINK_STATE.game_state = 0 ∧
    (play R0 (Input.key Move.hold) BRINK_STATE).map (fun t => (t.game_state, t.hold_locked))
      = some (1, 1) ∧
    tally R0 [Input.key Move.hold, Input.restart, Input.key Move.hold] BRINK_STATE = ⟨0, 1, 2⟩ ∧
    tally R0 [Input.key Move.hold, Input.restart, Input.key Move.hold, Input.hard_drop]
      BRINK_STATE = ⟨1, 1, 2⟩ ∧
    ¬ ((tally R0 [Input.key Move.hold, Input.restart, Input.key Move.hold] BRINK_STATE).holds
        ≤ 1) := by
  refine ⟨brink_reachable, tower_reached.2.1, brink_reached.1, brink_reached.2, by decide,
    by decide, by decide, by decide, by decide⟩

end Tetris
